import Mathlib

/-!
Verification development for the EduBridge backend's AI-orchestration and
content-generation subsystem.

The JavaScript source is shallowly embedded: each JS helper (string splitting,
trimming, sentence matching, JSON parsing, the provider fallback chain, the
response validators and the heuristic fallback generators) becomes a total,
executable Lean definition over `String` / `List Char`, with JS dynamic values
modelled by the `JsValue` inductive and fallible steps by `Except` / `Option`.
`src/server.js` (single-provider variant) and the multi-provider entry point
are both modelled; the latter under the main namespace, the former under
`SrvJs` where it differs.
-/

namespace EduBridge

/-! ### Character classes and basic JS string helpers -/

/-- Whitespace class of the JS regexes `\s` used by the source, restricted to
the ASCII whitespace actually relevant here (space, tab, LF, CR, VT, FF). -/
def isWsCh (c : Char) : Bool :=
  c == ' ' || c == '\t' || c == '\n' || c == '\r' || c == Char.ofNat 11 || c == Char.ofNat 12

/-- Decimal digit test, as in the JSON number grammar. -/
def isDigitCh (c : Char) : Bool := '0' ≤ c && c ≤ '9'

/-- Sentence-terminating punctuation of the regex `[.!?]` in the fallback
generators. -/
def isTermCh (c : Char) : Bool := c == '.' || c == '!' || c == '?'

/-- Letter test of the regex `[A-Za-z]` in the fallback flashcards. -/
def isAlphaCh (c : Char) : Bool := ('A' ≤ c && c ≤ 'Z') || ('a' ≤ c && c ≤ 'z')

/-- Drop leading characters satisfying `isWsCh` (one side of JS `trim`). -/
def skipWsL : List Char → List Char
  | [] => []
  | c :: cs => if isWsCh c then skipWsL cs else c :: cs

/-- JS `String.prototype.trim` on the character list: strip whitespace from
both ends. -/
def jsTrimL (cs : List Char) : List Char :=
  ((skipWsL ((skipWsL cs).reverse)).reverse)

/-- JS `String.prototype.trim` on strings. -/
def jsTrimS (s : String) : String := String.mk (jsTrimL s.data)

/-- JS `String.prototype.toLowerCase` (ASCII fragment). -/
def jsToLower (s : String) : String := String.mk (s.data.map Char.toLower)

/-- Drop leading non-letters: the `replace(/^[^A-Za-z]*/, "")` step of the
fallback flashcards' main-concept card. -/
def skipNonAlpha : List Char → List Char
  | [] => []
  | c :: cs => if isAlphaCh c then c :: cs else skipNonAlpha cs

/-- Replace the first "-" with a space: JS `level.replace("-", " ")` (string
patterns replace only the first occurrence). -/
def replaceDashOnce : List Char → List Char
  | [] => []
  | c :: cs => if c == '-' then ' ' :: cs else c :: replaceDashOnce cs

/-- String form of `replaceDashOnce`. -/
def jsLevelWords (level : String) : String := String.mk (replaceDashOnce level.data)

mutual

/-- State of JS `split(/\s+/)` while inside a token: `acc` holds the current
token reversed. Hitting a whitespace run emits the token and switches to
`splitWsSkip`; end of input emits the final (possibly empty) token, matching
the JS semantics where `"".split(/\s+/)` is `[""]` and trailing separators
yield a trailing empty string. -/
def splitWsGo : List Char → List Char → List String
  | [], acc => [String.mk acc.reverse]
  | c :: cs, acc =>
    if isWsCh c then String.mk acc.reverse :: splitWsSkip cs
    else splitWsGo cs (c :: acc)

/-- State of JS `split(/\s+/)` while inside a separator run (the run's first
character is already consumed). -/
def splitWsSkip : List Char → List String
  | [] => [String.mk []]
  | c :: cs => if isWsCh c then splitWsSkip cs else splitWsGo cs [c]

end

/-- JS `s.split(/\s+/)`: split on maximal whitespace runs, keeping the empty
strings a leading/trailing separator produces. -/
def jsSplitWs (s : String) : List String := splitWsGo s.data []

mutual

/-- Sentence matcher, inside the `[^.!?]+` part of the global regex
`/[^.!?]+[.!?]+/g`: `acc` is the reversed text consumed by the current
candidate match. End of input without a terminator drops the candidate. -/
def sentBody : List Char → List Char → List (List Char)
  | [], _ => []
  | c :: cs, acc =>
    if isTermCh c then sentTerm cs (c :: acc) else sentBody cs (c :: acc)

/-- Sentence matcher, inside the trailing `[.!?]+` run; at the first
non-terminator (or end of input) the match `acc` is emitted. -/
def sentTerm : List Char → List Char → List (List Char)
  | [], acc => [acc.reverse]
  | c :: cs, acc =>
    if isTermCh c then sentTerm cs (c :: acc)
    else acc.reverse :: sentBody cs [c]

end

/-- Sentence matcher, before any match has started: terminator characters
cannot begin `[^.!?]+`, so the scan skips them. -/
def sentSkip : List Char → List (List Char)
  | [] => []
  | c :: cs => if isTermCh c then sentSkip cs else sentBody cs [c]

/-- JS `text.match(/[^.!?]+[.!?]+/g) || []`: the list of non-overlapping
matches; text with no terminal punctuation yields no sentence. -/
def matchSentences (text : String) : List String :=
  (sentSkip text.data).map String.mk

/-- The `[...new Set(list)]` idiom: deduplicate keeping the first occurrence
of each element, in order. `seen` accumulates elements already emitted. -/
def dedupFirst (seen : List String) : List String → List String
  | [] => []
  | w :: ws =>
    if seen.contains w then dedupFirst seen ws
    else w :: dedupFirst (w :: seen) ws

/-- Stop-word set shared by the fallback quiz and flashcards generators. -/
def commonWords12 : List String :=
  ["the", "and", "or", "but", "in", "on", "at", "to", "for", "of", "with", "by"]

/-- Larger stop-word set of the fallback summary generator. -/
def commonWords21 : List String :=
  ["the", "and", "or", "but", "in", "on", "at", "to", "for", "of", "with", "by",
   "is", "are", "was", "were", "be", "been", "have", "has", "had"]

/-- The keyword filter `word.length > 4 && !commonWords.has(word) &&
/^[a-z]+$/.test(word)` applied to one lowercased token. -/
def keepToken (stop : List String) (w : String) : Bool :=
  4 < w.data.length && !(stop.contains w) && w.data.all (fun c => 'a' ≤ c && c ≤ 'z')

/-- Keyword extraction used by all three fallback generators: lowercase,
split on whitespace, filter by `keepToken`, deduplicate keeping first-seen
order, and cap at `cap` terms. -/
def keyTermsOf (stop : List String) (cap : Nat) (text : String) : List String :=
  (dedupFirst [] ((jsSplitWs (jsToLower text)).filter (keepToken stop))).take cap

/-! ### JS values

JSON-parseable JS values; `undefined` is represented by `Option.none` at the
use sites (missing object member). Numbers are kept exact as
`mantissa × 10 ^ exponent`, which covers every numeric comparison the source
performs without floating-point rounding. -/

/-- An exact decimal number `mant * 10 ^ exp10`. -/
structure JsNum where
  mant : ℤ
  exp10 : ℤ
deriving DecidableEq

/-- Ten to a natural power, as an integer. -/
def pow10 (n : Nat) : ℤ := ((10 ^ n : Nat) : ℤ)

/-- The integer `n` as a `JsNum`. -/
def jsInt (n : ℤ) : JsNum := ⟨n, 0⟩

/-- Rescale two decimals to a common exponent, giving comparable integer
numerators. -/
def jsNumPair (a b : JsNum) : ℤ × ℤ :=
  let m := min a.exp10 b.exp10
  (a.mant * pow10 (a.exp10 - m).toNat, b.mant * pow10 (b.exp10 - m).toNat)

/-- Decide `a <= b` on exact decimals. -/
def jsNumLe (a b : JsNum) : Bool := decide ((jsNumPair a b).1 ≤ (jsNumPair a b).2)

/-- Decide `a < b` on exact decimals. -/
def jsNumLt (a b : JsNum) : Bool := decide ((jsNumPair a b).1 < (jsNumPair a b).2)

/-- Decide `a = 0` on exact decimals. -/
def jsNumIsZero (a : JsNum) : Bool := a.mant == 0

inductive JsValue where
  | null
  | bool (b : Bool)
  | num (q : JsNum)
  | str (s : String)
  | arr (items : List JsValue)
  | obj (fields : List (String × JsValue))

/-- Member lookup `v[k]` on an object; later duplicate keys win, as after
`JSON.parse`. Non-object receivers give `undefined` (`none`); the one
receiver that would instead throw in JS, `null`, is handled separately by
the entry filter and never reaches this function on the modelled paths. -/
def jsGet (v : JsValue) (k : String) : Option JsValue :=
  match v with
  | JsValue.obj fields => (fields.reverse.find? (fun p => p.1 == k)).map (fun p => p.2)
  | _ => none

/-- JS truthiness of a JSON-representable value. -/
def truthy : JsValue → Bool
  | JsValue.null => false
  | JsValue.bool b => b
  | JsValue.num q => !(jsNumIsZero q)
  | JsValue.str s => !(s == "")
  | JsValue.arr _ => true
  | JsValue.obj _ => true

/-- JS truthiness of a possibly-`undefined` member. -/
def truthyOpt : Option JsValue → Bool
  | none => false
  | some v => truthy v

/-! ### Heuristic fallback generators (part_001 variants) -/

/-- First fixed generic question of `generateFallbackQuiz`. -/
def fq1 : JsValue :=
  JsValue.obj
    [("question", JsValue.str "What is the main topic discussed in this text?"),
     ("options", JsValue.arr
       [JsValue.str "The primary concepts explained in the content",
        JsValue.str "Unrelated background information",
        JsValue.str "Only historical context",
        JsValue.str "General introductory material"]),
     ("correctIndex", JsValue.num (jsInt 0)),
     ("explanation", JsValue.str "The text primarily focuses on explaining the main concepts and key information about the topic.")]

/-- Second fixed generic question of `generateFallbackQuiz`; note the source
sets its `correctIndex` to 1 (the correct option is the second one). -/
def fq2 : JsValue :=
  JsValue.obj
    [("question", JsValue.str "How is the information in this text organized?"),
     ("options", JsValue.arr
       [JsValue.str "As a random collection of facts",
        JsValue.str "Through logical connections and explanations",
        JsValue.str "In strict chronological order",
        JsValue.str "As simple definitions only"]),
     ("correctIndex", JsValue.num (jsInt 1)),
     ("explanation", JsValue.str "The text presents information through connected ideas and detailed explanations.")]

/-- Third fixed generic question of `generateFallbackQuiz`. -/
def fq3 : JsValue :=
  JsValue.obj
    [("question", JsValue.str "What can readers learn from this content?"),
     ("options", JsValue.arr
       [JsValue.str "Important concepts to build understanding",
        JsValue.str "Only memorization of facts",
        JsValue.str "Unrelated general knowledge",
        JsValue.str "Just historical background"]),
     ("correctIndex", JsValue.num (jsInt 0)),
     ("explanation", JsValue.str "The content provides key concepts that help build solid understanding of the subject.")]

/-- Fourth question of `generateFallbackQuiz`, templated from the first
extracted keyword. -/
def fq4 (k : String) : JsValue :=
  JsValue.obj
    [("question", JsValue.str "Which concept is emphasized in the text?"),
     ("options", JsValue.arr
       [JsValue.str (k ++ " and related ideas"),
        JsValue.str "Completely different topics",
        JsValue.str "Only basic definitions",
        JsValue.str "Historical dates and figures"]),
     ("correctIndex", JsValue.num (jsInt 0)),
     ("explanation", JsValue.str ("The text specifically discusses " ++ k ++ " and explains its importance."))]

/-- `AIService.generateFallbackQuiz` of part_001: three fixed questions, a
fourth templated from the first keyword when one exists, truncated to 4. -/
def generateFallbackQuiz (text : String) : List JsValue :=
  let keyTerms := keyTermsOf commonWords12 3 text
  let questions :=
    match keyTerms with
    | [] => [fq1, fq2, fq3]
    | k :: _ => [fq1, fq2, fq3] ++ [fq4 k]
  questions.take 4

/-- Level-specific introductory sentence of `generateFallbackSummary`,
including the `|| levelIntro['high-school']` default for unknown levels. -/
def levelIntroOf (level : String) : String :=
  if level == "middle-school" then "This content explains important ideas in simple terms."
  else if level == "high-school" then "This material covers key concepts for students to understand."
  else if level == "college" then "This content presents advanced concepts requiring detailed analysis."
  else "This material covers key concepts for students to understand."

/-- `AIService.generateFallbackSummary` of part_001: level intro, first /
middle / last sentence, keyword list, and a word-count closing sentence. -/
def generateFallbackSummary (text level : String) : String :=
  let sentences := matchSentences text
  let words := jsSplitWs (jsToLower text)
  let keyTerms := keyTermsOf commonWords21 6 text
  let keySentences :=
    (if 0 < sentences.length then [sentences.getD 0 ""] else []) ++
    (if 2 < sentences.length then [sentences.getD (sentences.length / 2) ""] else []) ++
    (if 1 < sentences.length then [sentences.getD (sentences.length - 1) ""] else [])
  levelIntroOf level ++ "\n\n" ++
    jsTrimS (String.intercalate " " keySentences) ++
    "\n\nKey topics include: " ++ String.intercalate ", " (keyTerms.take 5) ++
    ". This " ++ Nat.repr words.length ++ "-word text provides " ++
    jsLevelWords level ++
    " level information that helps build understanding of the subject matter.\n\nThe content focuses on explaining these concepts clearly and providing foundation knowledge for further learning in this area."

/-- Substring containment used by `sentence.toLowerCase().includes(term)`. -/
def containsSub (hay needle : List Char) : Bool :=
  hay.tails.any (fun t => needle.isPrefixOf t)

/-- Main-concept card of `generateFallbackFlashcards`: first sentence,
trimmed, leading non-letters removed, capped at 150 characters, with an
ellipsis if the (untrimmed) first sentence exceeded 150 characters. -/
def mainConceptCard (s0 : String) : JsValue :=
  JsValue.obj
    [("front", JsValue.str "What is the main concept explained in this text?"),
     ("back", JsValue.str
       (String.mk ((skipNonAlpha (jsTrimL s0.data)).take 150) ++
        (if 150 < s0.data.length then "..." else "")))]

/-- Per-keyword card of `generateFallbackFlashcards`: quotes the first
sentence containing the term (case-insensitively), else a generic
definitional card. -/
def termCard (sentences : List String) (term : String) : JsValue :=
  match sentences.find? (fun s => containsSub (jsToLower s).data term.data) with
  | some s =>
    JsValue.obj
      [("front", JsValue.str ("What does \"" ++ term ++ "\" refer to in this context?")),
       ("back", JsValue.str
         (String.mk ((jsTrimL s.data).take 150) ++
          (if 150 < s.data.length then "..." else "")))]
  | none =>
    JsValue.obj
      [("front", JsValue.str ("What is " ++ term ++ "?")),
       ("back", JsValue.str "A key concept discussed in the text that is important for understanding the subject matter.")]

/-- Generic padding card pushed by the `while (cards.length < 3)` loop. -/
def genericPadCard : JsValue :=
  JsValue.obj
    [("front", JsValue.str "What type of information does this text provide?"),
     ("back", JsValue.str "Educational content that explains important concepts and provides detailed information about the topic.")]

/-- `AIService.generateFallbackFlashcards` of part_001: main-concept card,
one card per keyword, padded to at least 3 cards, capped at 5. -/
def generateFallbackFlashcards (text : String) : List JsValue :=
  let sentences := matchSentences text
  let keyTerms := keyTermsOf commonWords12 5 text
  let cards :=
    (match sentences with
     | [] => []
     | s0 :: _ => [mainConceptCard s0]) ++ keyTerms.map (termCard sentences)
  (cards ++ List.replicate (3 - cards.length) genericPadCard).take 5

/-! ### JSON parsing

A model of the platform's `JSON.parse` on the core JSON grammar: a total,
fuel-based recursive-descent parser over the character list. Each parsing
function returns the value together with the unconsumed remainder. -/

/-- Leading digits of a number literal, and the remainder. -/
def digitsSpan : List Char → List Char × List Char
  | [] => ([], [])
  | c :: cs =>
    if isDigitCh c then
      let p := digitsSpan cs
      (c :: p.1, p.2)
    else ([], c :: cs)

/-- Numeric value of a digit run. -/
def digitsToNat (ds : List Char) : Nat :=
  ds.foldl (fun acc c => acc * 10 + (c.toNat - 48)) 0

/-- Strip an exponent's optional sign, remembering whether it was minus. -/
def signSplit (cs : List Char) : Bool × List Char :=
  match cs with
  | '-' :: r => (true, r)
  | '+' :: r => (false, r)
  | _ => (false, cs)

/-- Optionally-signed digit run, as in a number's exponent part. -/
def parseSignedDigits (cs : List Char) : Option (ℤ × List Char) :=
  match digitsSpan (signSplit cs).2 with
  | ([], _) => none
  | (ds, rest) =>
    some (if (signSplit cs).1 then -(digitsToNat ds : ℤ) else (digitsToNat ds : ℤ), rest)

/-- Strip a number's optional leading minus. -/
def numSign (cs : List Char) : Bool × List Char :=
  match cs with
  | '-' :: r => (true, r)
  | _ => (false, cs)

/-- The optional fraction part after the integer digits: the fraction's
digits and the remainder. A bare dot without digits is left unconsumed. -/
def fracSplit (cs2 : List Char) : List Char × List Char :=
  match cs2 with
  | '.' :: r =>
    match digitsSpan r with
    | ([], _) => ([], cs2)
    | (fs, r2) => (fs, r2)
  | _ => ([], cs2)

/-- The optional exponent part: its signed value and the remainder. A bare
exponent marker without digits is left unconsumed. -/
def expSplit (cs3 : List Char) : ℤ × List Char :=
  match cs3 with
  | 'e' :: r =>
    match parseSignedDigits r with
    | some (e, r2) => (e, r2)
    | none => (0, cs3)
  | 'E' :: r =>
    match parseSignedDigits r with
    | some (e, r2) => (e, r2)
    | none => (0, cs3)
  | _ => (0, cs3)

/-- JSON number literal at the head of the input: optional minus, integer
digits, optional fraction, optional exponent; the exact decimal value
`mantissa × 10 ^ exponent` with the fraction digits folded into the
mantissa. -/
def parseNumber (cs : List Char) : Option (JsValue × List Char) :=
  match digitsSpan (numSign cs).2 with
  | ([], _) => none
  | (ds, cs2) =>
    let fp := fracSplit cs2
    let ep := expSplit fp.2
    let mant : ℤ := (digitsToNat (ds ++ fp.1) : ℤ)
    some
      (JsValue.num
        ⟨if (numSign cs).1 then -mant else mant, ep.1 - (fp.1.length : ℤ)⟩, ep.2)

/-- Unescape one string-escape character; `none` rejects the escape. -/
def escCh : Char → Option Char
  | 'b' => some (Char.ofNat 8)
  | 'n' => some '\n'
  | 'f' => some (Char.ofNat 12)
  | 'r' => some '\r'
  | '"' => some '"'
  | 't' => some '\t'
  | '/' => some '/'
  | '\\' => some '\\'
  | _ => none

mutual

/-- Body of a string literal, after the opening quote: consume up to the
closing quote, processing escapes; `acc` is the reversed content so far. -/
def strBody : List Char → List Char → Option (String × List Char)
  | [], _ => none
  | c :: cs, acc =>
    if c == '"' then some (String.mk acc.reverse, cs)
    else if c == '\\' then strEsc cs acc
    else strBody cs (c :: acc)

/-- Continuation of `strBody` directly after a backslash: unescape the next
character and resume. -/
def strEsc : List Char → List Char → Option (String × List Char)
  | [], _ => none
  | e :: cs2, acc =>
    match escCh e with
    | some d => strBody cs2 (d :: acc)
    | none => none

end

mutual

/-- JSON value at the head of the input (after optional whitespace). -/
def parseValue : Nat → List Char → Option (JsValue × List Char)
  | 0, _ => none
  | f + 1, cs =>
    match skipWsL cs with
    | 'n' :: 'u' :: 'l' :: 'l' :: rest => some (JsValue.null, rest)
    | 't' :: 'r' :: 'u' :: 'e' :: rest => some (JsValue.bool true, rest)
    | 'f' :: 'a' :: 'l' :: 's' :: 'e' :: rest => some (JsValue.bool false, rest)
    | '"' :: rest => (strBody rest []).map (fun p => (JsValue.str p.1, p.2))
    | '[' :: rest => (parseItems f rest).map (fun p => (JsValue.arr p.1, p.2))
    | '{' :: rest => (parseMembers f rest).map (fun p => (JsValue.obj p.1, p.2))
    | c :: rest => if c == '-' || isDigitCh c then parseNumber (c :: rest) else none
    | [] => none

/-- Array items after the opening bracket, up to and including the closing
bracket. -/
def parseItems : Nat → List Char → Option (List JsValue × List Char)
  | 0, _ => none
  | f + 1, cs =>
    match skipWsL cs with
    | ']' :: rest => some ([], rest)
    | cs2 =>
      match parseValue f cs2 with
      | none => none
      | some (v, r1) =>
        match skipWsL r1 with
        | ',' :: r2 => (parseItems f r2).map (fun p => (v :: p.1, p.2))
        | ']' :: r2 => some ([v], r2)
        | _ => none

/-- Object members after the opening brace, up to and including the closing
brace. -/
def parseMembers : Nat → List Char → Option (List (String × JsValue) × List Char)
  | 0, _ => none
  | f + 1, cs =>
    match skipWsL cs with
    | '}' :: rest => some ([], rest)
    | '"' :: rest =>
      match strBody rest [] with
      | none => none
      | some (k, r1) =>
        match skipWsL r1 with
        | ':' :: r2 =>
          match parseValue f r2 with
          | none => none
          | some (v, r3) =>
            match skipWsL r3 with
            | ',' :: r4 => (parseMembers f r4).map (fun p => ((k, v) :: p.1, p.2))
            | '}' :: r4 => some ([(k, v)], r4)
            | _ => none
        | _ => none
    | _ => none

end

/-- Fuel bound sufficient for `parseValue` on the given input (every level of
recursion either consumes a character or is charged to one). -/
def jsonFuel (cs : List Char) : Nat := 2 * cs.length + 2

/-- The platform's `JSON.parse` on a character list: a single value with only
whitespace after it; `none` models the thrown `SyntaxError`. -/
def jsonParseL (cs : List Char) : Option JsValue :=
  match parseValue (jsonFuel cs) cs with
  | some (v, rest) => if skipWsL rest = [] then some v else none
  | none => none

/-! ### Response cleaning: fence stripping and bracket matching -/

/-- Global replacement of `tag` followed by a whitespace run with nothing
(the `replace(/TAG\s*/g, "")` steps); fuel is the input length. -/
def stripTagGo (tag : List Char) : Nat → List Char → List Char
  | 0, cs => cs
  | _ + 1, [] => []
  | f + 1, c :: cs =>
    if tag.isPrefixOf (c :: cs) then stripTagGo tag f (skipWsL ((c :: cs).drop tag.length))
    else c :: stripTagGo tag f cs

/-- The characters of the tagged code-fence marker. -/
def fenceJsonTag : List Char := ("```json").data

/-- The characters of the plain code-fence marker. -/
def fenceTag : List Char := ("```").data

/-- The two `replace` calls stripping code-fence decorations, in source
order: the tagged form first, then the plain form. -/
def stripFences (cs : List Char) : List Char :=
  let c1 := stripTagGo fenceJsonTag (cs.length + 1) cs
  stripTagGo fenceTag (c1.length + 1) c1

/-- Drop characters preceding the first opening bracket; empty when the
input has none. -/
def dropUntilBr : List Char → List Char
  | [] => []
  | c :: cs => if c == '[' then c :: cs else dropUntilBr cs

/-- Drop characters preceding the first closing bracket; empty when the
input has none. Applied to reversed input to find the last closing bracket. -/
def dropUntilCl : List Char → List Char
  | [] => []
  | c :: cs => if c == ']' then c :: cs else dropUntilCl cs

/-- The regex match `cleanResponse.match(/\[[\s\S]*\]/)`: the slice from the
first `[` to the last `]`, or `none` when no such slice exists. -/
def bracketSlice (cs : List Char) : Option (List Char) :=
  match dropUntilBr cs with
  | [] => none
  | brHead :: afterBr =>
    match dropUntilCl afterBr.reverse with
    | [] => none
    | clHead :: midRev => some (brHead :: (midRev.reverse ++ [clHead]))

/-- The cleaned text handed to `JSON.parse`: trim, strip fences, and use the
bracketed slice when one exists, else the whole cleaned text. -/
def selectPayload (response : String) : List Char :=
  let cleaned := stripFences (jsTrimL response.data)
  match bracketSlice cleaned with
  | some m => m
  | none => cleaned

/-! ### Response validation -/

/-- Failure modes of the response parsers, as the distinct JS exceptions the
source can raise there: a `JSON.parse` `SyntaxError`, a `TypeError` from
member access on a `null` entry inside `filter`, and the explicitly thrown
`Error` covering both a non-array payload and zero surviving entries. -/
inductive ParseFail where
  | syntaxErr
  | typeErr
  | noValid
deriving DecidableEq

/-- The quiz entry filter `q.question && q.options && Array.isArray(q.options)
&& q.options.length === 4 && typeof q.correctIndex === "number" &&
q.correctIndex >= 0 && q.correctIndex < 4`. -/
def quizEntryOk (v : JsValue) : Bool :=
  truthyOpt (jsGet v "question") &&
  (match jsGet v "options" with
   | some (JsValue.arr os) => os.length == 4
   | _ => false) &&
  (match jsGet v "correctIndex" with
   | some (JsValue.num q) => jsNumLe (jsInt 0) q && jsNumLt q (jsInt 4)
   | _ => false)

/-- The flashcard entry filter `card.front && card.back && typeof card.front
=== "string" && typeof card.back === "string"`. -/
def cardEntryOk (v : JsValue) : Bool :=
  (match jsGet v "front" with
   | some (JsValue.str s) => !(s == "")
   | _ => false) &&
  (match jsGet v "back" with
   | some (JsValue.str s) => !(s == "")
   | _ => false)

/-- Test for the one JSON value on which JS member access throws. -/
def isNullV : JsValue → Bool
  | JsValue.null => true
  | _ => false

/-- `parsed.filter(shape)` over JS values: a `null` entry makes the member
access in the callback throw a `TypeError` (modelled as `Except.error`);
every other entry is kept or dropped by the shape test, unchanged. -/
def filterOkEntries (shape : JsValue → Bool) : List JsValue → Except Unit (List JsValue)
  | [] => Except.ok []
  | v :: vs =>
    if isNullV v then Except.error ()
    else (filterOkEntries shape vs).map (fun rest => if shape v then v :: rest else rest)

/-- `AIService.parseQuizResponse`: clean, locate payload, `JSON.parse`,
filter entries, require at least one survivor, truncate to 4. -/
def parseQuizResponse (response : String) : Except ParseFail (List JsValue) :=
  match jsonParseL (selectPayload response) with
  | none => Except.error ParseFail.syntaxErr
  | some (JsValue.arr entries) =>
    match filterOkEntries quizEntryOk entries with
    | Except.error _ => Except.error ParseFail.typeErr
    | Except.ok valid =>
      if 0 < valid.length then Except.ok (valid.take 4)
      else Except.error ParseFail.noValid
  | some _ => Except.error ParseFail.noValid

/-- `AIService.parseFlashcardResponse`: same pipeline with the flashcard
shape filter and truncation to 5. -/
def parseFlashcardResponse (response : String) : Except ParseFail (List JsValue) :=
  match jsonParseL (selectPayload response) with
  | none => Except.error ParseFail.syntaxErr
  | some (JsValue.arr entries) =>
    match filterOkEntries cardEntryOk entries with
    | Except.error _ => Except.error ParseFail.typeErr
    | Except.ok valid =>
      if 0 < valid.length then Except.ok (valid.take 5)
      else Except.error ParseFail.noValid
  | some _ => Except.error ParseFail.noValid

/-! ### Provider clients and the fallback orchestrator (part_001) -/

/-- Outcome of one HTTP exchange with a provider, as the code observes it:
the `ok` flag, the status code, and the text at the provider's envelope
path (`none` when the envelope lacks it). -/
structure HttpResp where
  ok : Bool
  status : Nat
  text : Option String

/-- Classified provider-call failures. -/
inductive PErr where
  | notConfigured
  | apiError
  | invalidResponse
  | allFailed
deriving DecidableEq

/-- The world a single orchestrated request runs against: the configured
credentials and each provider's responses (Gemini's indexed by retry count,
since each retry is a fresh exchange). -/
structure Env where
  googleApiKey : Option String
  groqApiKey : Option String
  cohereApiKey : Option String
  geminiHttp : Nat → HttpResp
  groqHttp : HttpResp
  cohereHttp : HttpResp

/-- Base delay `this.requestDelay` in milliseconds. -/
def requestDelay : Nat := 2000

/-- `AIService.makeGeminiRequest` with its rate-limit retry loop. Returns the
outcome together with the list of attempted retry counts and the list of
waits performed before each retry. A non-ok response with status 429 and
retry count below 2 waits `requestDelay * (retryCount + 1)` and re-invokes
itself; an ok response with a missing or empty text field is the
"Invalid Gemini API response" failure. -/
def geminiAttempts (env : Env) : Nat → Nat → Except PErr String × List Nat × List Nat
  | 0, _ => (Except.error PErr.apiError, [], [])
  | f + 1, rc =>
    match env.googleApiKey with
    | none => (Except.error PErr.notConfigured, [], [])
    | some _ =>
      let r := env.geminiHttp rc
      if r.ok = true then
        match r.text with
        | some t =>
          if t = "" then (Except.error PErr.invalidResponse, [rc], [])
          else (Except.ok t, [rc], [])
        | none => (Except.error PErr.invalidResponse, [rc], [])
      else if r.status = 429 ∧ rc < 2 then
        let rest := geminiAttempts env f (rc + 1)
        (rest.1, rc :: rest.2.1, requestDelay * (rc + 1) :: rest.2.2)
      else (Except.error PErr.apiError, [rc], [])

/-- Fuel wrapper for `AIService.makeGeminiRequest`: the real stopping
condition is the `retryCount < 2` bound checked inside `geminiAttempts`,
which from any starting retry count recurses fewer than 3 times, so fuel 3
makes the fuel-exhaustion branch unreachable. -/
def makeGeminiRequest (env : Env) (rc : Nat) : Except PErr String × List Nat × List Nat :=
  geminiAttempts env 3 rc

/-- `AIService.makeGroqRequest`: a single exchange, no retry; a missing
envelope path throws (modelled as a failure). -/
def makeGroqRequest (env : Env) : Except PErr String :=
  match env.groqApiKey with
  | none => Except.error PErr.notConfigured
  | some _ =>
    let r := env.groqHttp
    if r.ok = true then
      match r.text with
      | some t => Except.ok t
      | none => Except.error PErr.invalidResponse
    else Except.error PErr.apiError

/-- `AIService.makeCohereRequest`: a single exchange, no retry. -/
def makeCohereRequest (env : Env) : Except PErr String :=
  match env.cohereApiKey with
  | none => Except.error PErr.notConfigured
  | some _ =>
    let r := env.cohereHttp
    if r.ok = true then
      match r.text with
      | some t => Except.ok t
      | none => Except.error PErr.invalidResponse
    else Except.error PErr.apiError

/-- One provider attempt in the orchestration trace. -/
inductive Call where
  | gemini (rc : Nat)
  | groq
  | cohere
deriving DecidableEq

/-- Tail of `makeRequest` from the Cohere stage: attempt Cohere when its key
is configured; any failure (or a missing key) ends in the thrown
`All AI services failed`. -/
def afterGroq (env : Env) (pre : List Call) : Except PErr String × List Call :=
  match env.cohereApiKey with
  | none => (Except.error PErr.allFailed, pre)
  | some _ =>
    match makeCohereRequest env with
    | Except.ok t => (Except.ok t, pre ++ [Call.cohere])
    | Except.error _ => (Except.error PErr.allFailed, pre ++ [Call.cohere])

/-- Tail of `makeRequest` from the Groq stage. -/
def afterGemini (env : Env) (pre : List Call) : Except PErr String × List Call :=
  match env.groqApiKey with
  | none => afterGroq env pre
  | some _ =>
    match makeGroqRequest env with
    | Except.ok t => (Except.ok t, pre ++ [Call.groq])
    | Except.error _ => afterGroq env (pre ++ [Call.groq])

/-- `AIService.makeRequest` of part_001: Gemini (with its retry loop) when a
Google key is configured, then Groq, then Cohere; the first success is
returned, and exhaustion throws `All AI services failed`. The second
component is the trace of provider attempts, in order. -/
def makeRequest (env : Env) : Except PErr String × List Call :=
  match env.googleApiKey with
  | none => afterGemini env []
  | some _ =>
    let g := makeGeminiRequest env 0
    match g.1 with
    | Except.ok t => (Except.ok t, g.2.1.map Call.gemini)
    | Except.error _ => afterGemini env (g.2.1.map Call.gemini)

/-- `AIService.generateSummary` of part_001: provider text trimmed on
success, heuristic fallback on any failure. -/
def generateSummary (env : Env) (text level : String) : String :=
  match (makeRequest env).1 with
  | Except.ok r => jsTrimS r
  | Except.error _ => generateFallbackSummary text level

/-- `AIService.generateQuiz` of part_001: parsed provider payload on
success; heuristic fallback when the provider chain or the parser fails. -/
def generateQuiz (env : Env) (text : String) : List JsValue :=
  match (makeRequest env).1 with
  | Except.error _ => generateFallbackQuiz text
  | Except.ok r =>
    match parseQuizResponse r with
    | Except.ok out => out
    | Except.error _ => generateFallbackQuiz text

/-- `AIService.generateFlashcards` of part_001. -/
def generateFlashcards (env : Env) (text : String) : List JsValue :=
  match (makeRequest env).1 with
  | Except.error _ => generateFallbackFlashcards text
  | Except.ok r =>
    match parseFlashcardResponse r with
    | Except.ok out => out
    | Except.error _ => generateFallbackFlashcards text

/-! ### HTTP input gates of the two processing endpoints -/

/-- Input validation of `POST /api/process-text`: empty or blank text is a
caller error, text over 10,000 characters is rejected, anything else is
processed unchanged. -/
def processTextGate (text : String) : Except String String :=
  if jsTrimL text.data = [] then Except.error ("Text content is required")
  else if 10000 < text.data.length then
    Except.error ("Text too long. Maximum 10,000 characters allowed.")
  else Except.ok text

/-- Input handling of `POST /api/process-file` after extraction: empty or
blank extracted text is a caller error; text over 10,000 characters is
silently truncated to its first 10,000 characters plus an ellipsis and then
processed. -/
def processFileGate (extractedText : String) : Except String String :=
  if jsTrimL extractedText.data = [] then
    Except.error ("No text could be extracted from the file")
  else if 10000 < extractedText.data.length then
    Except.ok (String.mk (extractedText.data.take 10000) ++ "...")
  else Except.ok extractedText

end EduBridge

namespace SrvJs

/-- The world of `src/server.js`'s single-provider `AIService`: one optional
key and the Gemini responses indexed by retry count. -/
structure SEnv where
  apiKey : Option String
  http : Nat → EduBridge.HttpResp

/-- `AIService.makeRequest` of `src/server.js`: Gemini only, with the same
429 retry loop; a missing key throws immediately. -/
def requestGo (env : SEnv) : Nat → Nat → Except EduBridge.PErr String
  | 0, _ => Except.error EduBridge.PErr.apiError
  | f + 1, rc =>
    match env.apiKey with
    | none => Except.error EduBridge.PErr.notConfigured
    | some _ =>
      let r := env.http rc
      if r.ok = true then
        match r.text with
        | some t =>
          if t = "" then Except.error EduBridge.PErr.invalidResponse
          else Except.ok t
        | none => Except.error EduBridge.PErr.invalidResponse
      else if r.status = 429 ∧ rc < 2 then
        requestGo env f (rc + 1)
      else Except.error EduBridge.PErr.apiError

/-- Fuel wrapper: as with the multi-provider variant, the `retryCount < 2`
bound keeps the recursion below 3 levels, so fuel 3 is never exhausted. -/
def makeRequest (env : SEnv) (rc : Nat) : Except EduBridge.PErr String :=
  requestGo env 3 rc

/-- Faults `src/server.js`'s `generateQuiz` can propagate to its caller. -/
inductive JsFault where
  | missingFallbackQuiz
deriving DecidableEq

/-- `AIService.generateQuiz` of `src/server.js`. Its catch branch runs
`this.generateFallbackQuiz(text)`, but that `AIService` class defines no
`generateFallbackQuiz` method, so the call itself raises a
`TypeError` that propagates out of the operation. -/
def generateQuiz (env : SEnv) (text : String) : Except JsFault (List EduBridge.JsValue) :=
  match makeRequest env 0 with
  | Except.error _ => Except.error JsFault.missingFallbackQuiz
  | Except.ok r =>
    match EduBridge.parseQuizResponse r with
    | Except.ok out => Except.ok out
    | Except.error _ => Except.error JsFault.missingFallbackQuiz

end SrvJs

namespace EduBridge

/-! ### Concrete worlds used by the witnesses -/

/-- A successful provider exchange carrying some text. -/
def okResp : HttpResp := ⟨true, 200, some ("provider text")⟩

/-- A non-rate-limit provider failure. -/
def failResp : HttpResp := ⟨false, 500, none⟩

/-- A rate-limited provider exchange. -/
def rlResp : HttpResp := ⟨false, 429, none⟩

/-- A world with no credential configured for any provider. -/
def envNoKeys : Env := ⟨none, none, none, fun _ => okResp, okResp, okResp⟩

/-- A world where every provider is configured, Gemini is permanently
rate-limited and Groq succeeds. -/
def envRateLimited : Env :=
  ⟨some ("gk"), some ("qk"), some ("ck"), fun _ => rlResp, okResp, okResp⟩

/-- A world where every provider is configured, Gemini fails outright and
Groq succeeds. -/
def envGeminiDown : Env :=
  ⟨some ("gk"), some ("qk"), some ("ck"), fun _ => failResp, okResp, okResp⟩

/-- The `src/server.js` world with no Google key configured. -/
def srvNoKeyEnv : SrvJs.SEnv := ⟨none, fun _ => okResp⟩

/-- Ten thousand and one spaces: over-long but blank input. -/
def longBlank : String := String.mk (List.replicate 10001 ' ')

/-- Ten thousand and one letters: over-long, non-blank input. -/
def longLetters : String := String.mk (List.replicate 10001 'a')

/-! ### Shape-contract violations, as stated by the specification -/

/-- The entry's `options` member is not an array of exactly 4 items. -/
def optionsNot4 (v : JsValue) : Prop :=
  ∀ os, jsGet v "options" = some (JsValue.arr os) → os.length ≠ 4

/-- The entry's `correctIndex` member is not a number lying in `[0, 4)`. -/
def correctIndexBad (v : JsValue) : Prop :=
  ∀ q, jsGet v "correctIndex" = some (JsValue.num q) →
    jsNumLe (jsInt 0) q = false ∨ jsNumLt q (jsInt 4) = false

/-- The entry's `question` member is the empty string. -/
def questionEmptyStr (v : JsValue) : Prop :=
  jsGet v "question" = some (JsValue.str "")

/-! ### Concrete payloads used by the witnesses -/

/-- Raw provider text with one well-shaped and one malformed quiz entry. -/
def rawMixedQuiz : String :=
  "[\x7b\"question\":\"Q\",\"options\":[1,2,3,4],\"correctIndex\":0\x7d,\x7b\"question\":\"R\",\"options\":[1,2,3],\"correctIndex\":0\x7d]"

/-- The well-shaped entry of `rawMixedQuiz`, as parsed. -/
def entryGoodQ : JsValue :=
  JsValue.obj
    [("question", JsValue.str "Q"),
     ("options", JsValue.arr
       [JsValue.num (jsInt 1), JsValue.num (jsInt 2),
        JsValue.num (jsInt 3), JsValue.num (jsInt 4)]),
     ("correctIndex", JsValue.num (jsInt 0))]

/-- The malformed entry of `rawMixedQuiz` (three options), as parsed. -/
def entryBadQ : JsValue :=
  JsValue.obj
    [("question", JsValue.str "R"),
     ("options", JsValue.arr
       [JsValue.num (jsInt 1), JsValue.num (jsInt 2), JsValue.num (jsInt 3)]),
     ("correctIndex", JsValue.num (jsInt 0))]

/-- Raw provider text with a single well-shaped quiz entry. -/
def rawOneQuiz : String :=
  "[\x7b\"question\":\"A\",\"options\":[7,7,7,7],\"correctIndex\":3\x7d]"

/-- The single entry of `rawOneQuiz`, as parsed. -/
def entryOneQ : JsValue :=
  JsValue.obj
    [("question", JsValue.str "A"),
     ("options", JsValue.arr
       [JsValue.num (jsInt 7), JsValue.num (jsInt 7),
        JsValue.num (jsInt 7), JsValue.num (jsInt 7)]),
     ("correctIndex", JsValue.num (jsInt 3))]

/-- Raw provider text with a single well-shaped flashcard entry. -/
def rawOneCard : String := "[\x7b\"front\":\"f\",\"back\":\"b\"\x7d]"

/-- The single entry of `rawOneCard`, as parsed. -/
def entryOneC : JsValue :=
  JsValue.obj [("front", JsValue.str "f"), ("back", JsValue.str "b")]

end EduBridge

namespace EduBridge

/-! ## Supporting lemmas -/

/-- Splitting off the whitespace `skipWsL` removed. -/
theorem skipWsL_decomp (cs : List Char) :
    ∃ a, cs = a ++ skipWsL cs ∧ ∀ c ∈ a, isWsCh c = true := by
  induction cs with
  | nil => exact ⟨[], rfl, by simp⟩
  | cons c cs ih =>
    by_cases h : isWsCh c = true
    · rcases ih with ⟨a, ha, hall⟩
      refine ⟨c :: a, ?_, ?_⟩
      · simp only [skipWsL, h, if_true, List.cons_append]
        exact congrArg (c :: ·) ha
      · intro x hx
        rcases List.mem_cons.mp hx with hx | hx
        · exact hx ▸ h
        · exact hall x hx
    · refine ⟨[], ?_, by simp⟩
      simp [skipWsL, h]

/-- A whitespace-only list of spaces is consumed whole. -/
theorem skipWsL_replicate_sp (n : Nat) : skipWsL (List.replicate n ' ') = [] := by
  induction n with
  | zero => rfl
  | succ n ih =>
    have hw : isWsCh ' ' = true := rfl
    simp [List.replicate_succ, skipWsL, hw, ih]

/-- A non-whitespace head stops the whitespace skipper. -/
theorem skipWsL_cons_not (c : Char) (cs : List Char) (h : isWsCh c = false) :
    skipWsL (c :: cs) = c :: cs := by
  simp [skipWsL, h]

/-- Trimming the all-blank over-long input empties it. -/
theorem jsTrimL_longBlank : jsTrimL longBlank.data = [] := by
  show jsTrimL (List.replicate 10001 ' ') = []
  unfold jsTrimL
  rw [skipWsL_replicate_sp]
  rfl

/-- Trimming the all-letter over-long input leaves it unchanged. -/
theorem jsTrimL_longLetters : jsTrimL longLetters.data = longLetters.data := by
  show jsTrimL (List.replicate 10001 'a') = List.replicate 10001 'a'
  have ha : isWsCh 'a' = false := rfl
  have h1 : skipWsL (List.replicate 10001 'a') = List.replicate 10001 'a' := by
    rw [show (10001 : Nat) = 10000 + 1 from rfl, List.replicate_succ,
      skipWsL_cons_not _ _ ha]
  rw [jsTrimL, h1, List.reverse_replicate, h1, List.reverse_replicate]

/-- What a successful run of the entry filter guarantees: the survivors form
a sublist of the input (same elements, same order, nothing repaired) and
each survivor passes the shape test. -/
theorem filterOk_spec (shape : JsValue → Bool) :
    ∀ es valid, filterOkEntries shape es = Except.ok valid →
      valid.Sublist es ∧ ∀ v ∈ valid, shape v = true := by
  intro es
  induction es with
  | nil =>
    intro valid h
    simp only [filterOkEntries, Except.ok.injEq] at h
    subst h
    exact ⟨List.nil_sublist [], by simp⟩
  | cons v vs ih =>
    intro valid h
    by_cases hn : isNullV v = true
    · simp [filterOkEntries, hn] at h
    · simp only [filterOkEntries, hn, if_false, Bool.false_eq_true] at h
      rcases hrec : filterOkEntries shape vs with u | rest
      · rw [hrec] at h; simp [Except.map] at h
      · rw [hrec] at h
        simp only [Except.map, Except.ok.injEq] at h
        rcases ih rest hrec with ⟨hsub, hall⟩
        by_cases hs : shape v = true
        · rw [if_pos hs] at h
          subst h
          refine ⟨List.Sublist.cons₂ v hsub, ?_⟩
          intro x hx
          rcases List.mem_cons.mp hx with hx | hx
          · exact hx ▸ hs
          · exact hall x hx
        · rw [if_neg hs] at h
          subst h
          exact ⟨hsub.cons v, hall⟩

/-- A shape-contract violation named by the specification falsifies the
source's quiz entry filter. -/
theorem violation_fails_filter (v : JsValue)
    (h : optionsNot4 v ∨ correctIndexBad v ∨ questionEmptyStr v) :
    quizEntryOk v = false := by
  rw [Bool.eq_false_iff]
  intro htrue
  simp only [quizEntryOk, Bool.and_eq_true] at htrue
  obtain ⟨⟨hq, hopt⟩, hidx⟩ := htrue
  rcases h with h | h | h
  · rcases hmo : jsGet v "options" with _ | w
    · rw [hmo] at hopt; cases hopt
    · rcases w with _ | b | q | s | os | fs <;> rw [hmo] at hopt <;> try cases hopt
      exact h os hmo (by simpa using hopt)
  · rcases hmi : jsGet v "correctIndex" with _ | w
    · rw [hmi] at hidx; cases hidx
    · rcases w with _ | b | q | s | os | fs <;> rw [hmi] at hidx <;> try cases hidx
      rcases Bool.and_eq_true .. |>.mp hidx with ⟨h1, h2⟩
      rcases h q hmi with hbad | hbad
      · rw [h1] at hbad; cases hbad
      · rw [h2] at hbad; cases hbad
  · rw [questionEmptyStr] at h
    rw [h] at hq
    cases hq

/-- Membership transport across a tail decomposition. -/
theorem suffix_mem {x : Char} {r cs : List Char} (h : ∃ a, cs = a ++ r) (hx : x ∈ r) :
    x ∈ cs := by
  rcases h with ⟨a, rfl⟩
  exact List.mem_append_right a hx

/-- Tail decompositions compose. -/
theorem suffix_trans {r s t : List Char} (h1 : ∃ a, t = a ++ s) (h2 : ∃ a, s = a ++ r) :
    ∃ a, t = a ++ r := by
  rcases h1 with ⟨a, rfl⟩
  rcases h2 with ⟨b, rfl⟩
  exact ⟨a ++ b, by rw [List.append_assoc]⟩

/-- The whitespace skipper returns a tail of its input. -/
theorem skipWsL_suffix (cs : List Char) : ∃ a, cs = a ++ skipWsL cs := by
  obtain ⟨a, ha, _⟩ := skipWsL_decomp cs
  exact ⟨a, ha⟩

/-- Membership transport out of the whitespace skipper. -/
theorem skipWsL_mem {x : Char} {cs : List Char} (h : x ∈ skipWsL cs) : x ∈ cs :=
  suffix_mem (skipWsL_suffix cs) h

/-- Chaining a tail decomposition through the whitespace skipper. -/
theorem suffix_via_skip {cs X r : List Char} (heq : skipWsL cs = X) (h : ∃ b, X = b ++ r) :
    ∃ a, cs = a ++ r :=
  suffix_trans (heq ▸ skipWsL_suffix cs) h

/-- The digit scanner splits its input. -/
theorem digitsSpan_append : ∀ cs : List Char, (digitsSpan cs).1 ++ (digitsSpan cs).2 = cs := by
  intro cs
  induction cs with
  | nil => rfl
  | cons c cs ih =>
    by_cases h : isDigitCh c = true
    · simp only [digitsSpan, h, if_true]
      exact congrArg (c :: ·) ih
    · simp [digitsSpan, h]

/-- The digit scanner's remainder is a tail of its input. -/
theorem digitsSpan_suffix (cs : List Char) : ∃ a, cs = a ++ (digitsSpan cs).2 :=
  ⟨(digitsSpan cs).1, (digitsSpan_append cs).symm⟩

/-- The exponent's sign stripper keeps a tail of its input. -/
theorem signSplit_suffix (cs : List Char) : ∃ a, cs = a ++ (signSplit cs).2 := by
  unfold signSplit
  split
  · exact ⟨['-'], rfl⟩
  · exact ⟨['+'], rfl⟩
  · exact ⟨[], rfl⟩

/-- The number's sign stripper keeps a tail of its input. -/
theorem numSign_suffix (cs : List Char) : ∃ a, cs = a ++ (numSign cs).2 := by
  unfold numSign
  split
  · exact ⟨['-'], rfl⟩
  · exact ⟨[], rfl⟩

/-- The signed-digit parser's remainder is a tail of its input. -/
theorem parseSignedDigits_suffix (cs : List Char) (e : ℤ) (r : List Char)
    (h : parseSignedDigits cs = some (e, r)) : ∃ a, cs = a ++ r := by
  simp only [parseSignedDigits] at h
  split at h
  · cases h
  · rename_i ds rest heq
    simp only [Option.some.injEq, Prod.mk.injEq] at h
    obtain ⟨_, hr⟩ := h
    subst hr
    refine suffix_trans (signSplit_suffix cs) ?_
    have hd := digitsSpan_suffix (signSplit cs).2
    rw [heq] at hd
    exact hd

/-- Reduction of the fraction splitter at a head that is not a dot. -/
theorem fracSplit_other (c : Char) (r : List Char) (hc : ¬c = '.') :
    fracSplit (c :: r) = ([], c :: r) := by
  unfold fracSplit
  split
  · simp_all
  · rfl

/-- The fraction splitter's remainder is a tail of its input. -/
theorem fracSplit_suffix (cs2 : List Char) : ∃ a, cs2 = a ++ (fracSplit cs2).2 := by
  rcases cs2 with _ | ⟨c, r⟩
  · exact ⟨[], rfl⟩
  · by_cases hc : c = '.'
    · subst hc
      have hq : fracSplit ('.' :: r) =
          (match digitsSpan r with
           | ([], _) => ([], '.' :: r)
           | (fs, r2) => (fs, r2)) := rfl
      rcases hds : digitsSpan r with ⟨ds, r2⟩
      rcases ds with _ | ⟨d, ds2⟩
      · have he : fracSplit ('.' :: r) = ([], '.' :: r) := by rw [hq, hds]
        rw [he]
        exact ⟨[], rfl⟩
      · have he : fracSplit ('.' :: r) = (d :: ds2, r2) := by rw [hq, hds]
        rw [he]
        have happ := digitsSpan_append r
        rw [hds] at happ
        refine ⟨'.' :: d :: ds2, ?_⟩
        simp only [List.cons_append]
        exact congrArg ('.' :: ·) happ.symm
    · rw [fracSplit_other c r hc]
      exact ⟨[], rfl⟩

/-- Reduction of the exponent splitter at a head that is not an exponent
marker. -/
theorem expSplit_other (c : Char) (r : List Char) (h1 : ¬c = 'e') (h2 : ¬c = 'E') :
    expSplit (c :: r) = (0, c :: r) := by
  unfold expSplit
  split
  · simp_all
  · simp_all
  · rfl

/-- The exponent splitter's remainder is a tail of its input. -/
theorem expSplit_suffix (cs3 : List Char) : ∃ a, cs3 = a ++ (expSplit cs3).2 := by
  rcases cs3 with _ | ⟨c, r⟩
  · exact ⟨[], rfl⟩
  · by_cases h1 : c = 'e'
    · subst h1
      have hq : expSplit ('e' :: r) =
          (match parseSignedDigits r with
           | some (e, r2) => (e, r2)
           | none => ((0 : ℤ), 'e' :: r)) := rfl
      rcases hps : parseSignedDigits r with _ | ⟨e, r2⟩
      · have he : expSplit ('e' :: r) = (0, 'e' :: r) := by rw [hq, hps]
        rw [he]
        exact ⟨[], rfl⟩
      · have he : expSplit ('e' :: r) = (e, r2) := by rw [hq, hps]
        rw [he]
        obtain ⟨a, ha⟩ := parseSignedDigits_suffix r e r2 hps
        exact ⟨'e' :: a, by rw [List.cons_append, ← ha]⟩
    · by_cases h2 : c = 'E'
      · subst h2
        have hq : expSplit ('E' :: r) =
            (match parseSignedDigits r with
             | some (e, r2) => (e, r2)
             | none => ((0 : ℤ), 'E' :: r)) := rfl
        rcases hps : parseSignedDigits r with _ | ⟨e, r2⟩
        · have he : expSplit ('E' :: r) = (0, 'E' :: r) := by rw [hq, hps]
          rw [he]
          exact ⟨[], rfl⟩
        · have he : expSplit ('E' :: r) = (e, r2) := by rw [hq, hps]
          rw [he]
          obtain ⟨a, ha⟩ := parseSignedDigits_suffix r e r2 hps
          exact ⟨'E' :: a, by rw [List.cons_append, ← ha]⟩
      · rw [expSplit_other c r h1 h2]
        exact ⟨[], rfl⟩

/-- The number parser's remainder is a tail of its input. -/
theorem parseNumber_suffix (cs : List Char) (v : JsValue) (r : List Char)
    (h : parseNumber cs = some (v, r)) : ∃ a, cs = a ++ r := by
  rcases hds : digitsSpan (numSign cs).2 with ⟨ds, cs2⟩
  rcases ds with _ | ⟨d, ds2⟩
  · simp only [parseNumber, hds] at h
    exact Option.noConfusion h
  · simp only [parseNumber, hds, Option.some.injEq, Prod.mk.injEq] at h
    obtain ⟨_, hr⟩ := h
    subst hr
    refine suffix_trans (numSign_suffix cs) (suffix_trans ?_
      (suffix_trans (fracSplit_suffix cs2) (expSplit_suffix (fracSplit cs2).2)))
    have happ := digitsSpan_append (numSign cs).2
    rw [hds] at happ
    exact ⟨d :: ds2, happ.symm⟩

/-- The number parser only ever returns a numeric value. -/
theorem parseNumber_num (cs : List Char) (v : JsValue) (r : List Char)
    (h : parseNumber cs = some (v, r)) : ∃ q, v = JsValue.num q := by
  rcases hds : digitsSpan (numSign cs).2 with ⟨ds, cs2⟩
  rcases ds with _ | ⟨d, ds2⟩
  · simp only [parseNumber, hds] at h
    exact Option.noConfusion h
  · simp only [parseNumber, hds, Option.some.injEq, Prod.mk.injEq] at h
    exact ⟨_, h.1.symm⟩

/-- Joint tail property of the string-body parser and its escape
continuation, by strong induction on the input length. -/
theorem strParsers_suffix : ∀ n : Nat,
    (∀ cs acc s r, cs.length ≤ n → strBody cs acc = some (s, r) → ∃ a, cs = a ++ r) ∧
    (∀ cs acc s r, cs.length ≤ n → strEsc cs acc = some (s, r) → ∃ a, cs = a ++ r) := by
  intro n
  induction n with
  | zero =>
    constructor <;> intro cs acc s r hlen h <;> rcases cs with _ | ⟨c, cs⟩
    · simp [strBody] at h
    · simp only [List.length_cons] at hlen; omega
    · simp [strEsc] at h
    · simp only [List.length_cons] at hlen; omega
  | succ n ih =>
    obtain ⟨ihB, ihE⟩ := ih
    constructor
    · intro cs acc s r hlen h
      rcases cs with _ | ⟨c, cs⟩
      · simp [strBody] at h
      · simp only [strBody] at h
        by_cases hq : (c == '"') = true
        · rw [if_pos hq] at h
          simp only [Option.some.injEq, Prod.mk.injEq] at h
          exact ⟨[c], by rw [h.2]; rfl⟩
        · rw [if_neg hq] at h
          by_cases hb : (c == '\\') = true
          · rw [if_pos hb] at h
            obtain ⟨a, ha⟩ := ihE cs acc s r
              (by simp only [List.length_cons] at hlen; omega) h
            exact ⟨c :: a, by rw [List.cons_append, ← ha]⟩
          · rw [if_neg hb] at h
            obtain ⟨a, ha⟩ := ihB cs (c :: acc) s r
              (by simp only [List.length_cons] at hlen; omega) h
            exact ⟨c :: a, by rw [List.cons_append, ← ha]⟩
    · intro cs acc s r hlen h
      rcases cs with _ | ⟨e, cs2⟩
      · simp [strEsc] at h
      · simp only [strEsc] at h
        rcases hesc : escCh e with _ | d
        · rw [hesc] at h; cases h
        · rw [hesc] at h
          obtain ⟨a, ha⟩ := ihB cs2 (d :: acc) s r
            (by simp only [List.length_cons] at hlen; omega) h
          exact ⟨e :: a, by rw [List.cons_append, ← ha]⟩

/-- The string-body parser's remainder is a tail of its input. -/
theorem strBody_suffix (cs acc : List Char) (s : String) (r : List Char)
    (h : strBody cs acc = some (s, r)) : ∃ a, cs = a ++ r :=
  (strParsers_suffix cs.length).1 cs acc s r le_rfl h

/-- Tail property of the three mutually recursive JSON parsing functions:
whatever they return, the unconsumed remainder is a tail of the input. -/
theorem parser_suffix : ∀ f : Nat,
    (∀ cs v r, parseValue f cs = some (v, r) → ∃ a, cs = a ++ r) ∧
    (∀ cs vs r, parseItems f cs = some (vs, r) → ∃ a, cs = a ++ r) ∧
    (∀ cs ms r, parseMembers f cs = some (ms, r) → ∃ a, cs = a ++ r) := by
  intro f
  induction f with
  | zero =>
    refine ⟨?_, ?_, ?_⟩ <;> intro cs x r h <;>
      simp [parseValue, parseItems, parseMembers] at h
  | succ f ih =>
    obtain ⟨ihv, ihi, ihm⟩ := ih
    refine ⟨?_, ?_, ?_⟩
    · intro cs v r h
      simp only [parseValue] at h
      split at h
      · rename_i rest heq
        simp only [Option.some.injEq, Prod.mk.injEq] at h
        exact suffix_via_skip heq ⟨['n', 'u', 'l', 'l'], by simp [h.2]⟩
      · rename_i rest heq
        simp only [Option.some.injEq, Prod.mk.injEq] at h
        exact suffix_via_skip heq ⟨['t', 'r', 'u', 'e'], by simp [h.2]⟩
      · rename_i rest heq
        simp only [Option.some.injEq, Prod.mk.injEq] at h
        exact suffix_via_skip heq ⟨['f', 'a', 'l', 's', 'e'], by simp [h.2]⟩
      · rename_i rest heq
        rw [Option.map_eq_some'] at h
        obtain ⟨⟨s2, r2⟩, hsb, hpr⟩ := h
        simp only [Prod.mk.injEq] at hpr
        obtain ⟨a, ha⟩ := strBody_suffix rest [] s2 r2 hsb
        exact suffix_via_skip heq ⟨'"' :: a, by simp [ha, hpr.2]⟩
      · rename_i rest heq
        rw [Option.map_eq_some'] at h
        obtain ⟨⟨vs2, r2⟩, hpi, hpr⟩ := h
        simp only [Prod.mk.injEq] at hpr
        obtain ⟨a, ha⟩ := ihi rest vs2 r2 hpi
        exact suffix_via_skip heq ⟨'[' :: a, by simp [ha, hpr.2]⟩
      · rename_i rest heq
        rw [Option.map_eq_some'] at h
        obtain ⟨⟨ms2, r2⟩, hpm, hpr⟩ := h
        simp only [Prod.mk.injEq] at hpr
        obtain ⟨a, ha⟩ := ihm rest ms2 r2 hpm
        exact suffix_via_skip heq ⟨'{' :: a, by simp [ha, hpr.2]⟩
      · rename_i a1 c rest g1 g2 g3 g4 g5 g6 heq
        by_cases hd : (c == '-' || isDigitCh c) = true
        · rw [if_pos hd] at h
          obtain ⟨a, ha⟩ := parseNumber_suffix (c :: rest) v r h
          exact suffix_via_skip heq ⟨a, ha⟩
        · rw [if_neg hd] at h
          exact Option.noConfusion h
      · exact Option.noConfusion h
    · intro cs vs r h
      simp only [parseItems] at h
      split at h
      · rename_i rest heq
        simp only [Option.some.injEq, Prod.mk.injEq] at h
        exact suffix_via_skip heq ⟨[']'], by simp [h.2]⟩
      · rcases hv : parseValue f (skipWsL cs) with _ | ⟨v1, r1⟩
        · simp [hv] at h
        · simp only [hv] at h
          have hsfx1 : ∃ a, skipWsL cs = a ++ r1 := ihv (skipWsL cs) v1 r1 hv
          split at h
          · rename_i r2 heq2
            rw [Option.map_eq_some'] at h
            obtain ⟨⟨vs2, r3⟩, hpi, hpr⟩ := h
            simp only [Prod.mk.injEq] at hpr
            obtain ⟨a2, ha2⟩ := ihi r2 vs2 r3 hpi
            exact suffix_trans (skipWsL_suffix cs) (suffix_trans hsfx1
              (suffix_trans (skipWsL_suffix r1)
                ⟨',' :: a2, by simp [heq2, ha2, hpr.2]⟩))
          · rename_i r2 heq2
            simp only [Option.some.injEq, Prod.mk.injEq] at h
            exact suffix_trans (skipWsL_suffix cs) (suffix_trans hsfx1
              (suffix_trans (skipWsL_suffix r1) ⟨[']'], by simp [heq2, h.2]⟩))
          · exact Option.noConfusion h
    · intro cs ms r h
      simp only [parseMembers] at h
      split at h
      · rename_i rest heq
        simp only [Option.some.injEq, Prod.mk.injEq] at h
        exact suffix_via_skip heq ⟨['}'], by simp [h.2]⟩
      · rename_i rest heq
        rcases hsb : strBody rest [] with _ | ⟨k, r1⟩
        · simp [hsb] at h
        · simp only [hsb] at h
          have hs1 : ∃ a, rest = a ++ r1 := strBody_suffix rest [] k r1 hsb
          split at h
          · rename_i r2 heq2
            rcases hpv : parseValue f r2 with _ | ⟨v1, r3⟩
            · simp [hpv] at h
            · simp only [hpv] at h
              have hs2 : ∃ a, r2 = a ++ r3 := ihv r2 v1 r3 hpv
              split at h
              · rename_i r4 heq3
                rw [Option.map_eq_some'] at h
                obtain ⟨⟨ms2, r5⟩, hpm, hpr⟩ := h
                simp only [Prod.mk.injEq] at hpr
                obtain ⟨a5, ha5⟩ := ihm r4 ms2 r5 hpm
                refine suffix_via_skip heq (suffix_trans ⟨['"'], rfl⟩
                  (suffix_trans hs1 (suffix_trans (skipWsL_suffix r1)
                    (suffix_trans ⟨[':'], by simp [heq2]⟩
                      (suffix_trans hs2 (suffix_trans (skipWsL_suffix r3)
                        ⟨',' :: a5, by simp [heq3, ha5, hpr.2]⟩))))))
              · rename_i r4 heq3
                simp only [Option.some.injEq, Prod.mk.injEq] at h
                refine suffix_via_skip heq (suffix_trans ⟨['"'], rfl⟩
                  (suffix_trans hs1 (suffix_trans (skipWsL_suffix r1)
                    (suffix_trans ⟨[':'], by simp [heq2]⟩
                      (suffix_trans hs2 (suffix_trans (skipWsL_suffix r3)
                        ⟨['}'], by simp [heq3, h.2]⟩))))))
              · exact Option.noConfusion h
          · exact Option.noConfusion h
      · exact Option.noConfusion h

/-- A successful array-items parse has consumed a closing bracket, so one
occurs in its input. -/
theorem items_close_mem : ∀ (f : Nat) (cs : List Char) (vs : List JsValue) (r : List Char),
    parseItems f cs = some (vs, r) → ']' ∈ cs := by
  intro f
  induction f with
  | zero => intro cs vs r h; simp [parseItems] at h
  | succ f ih =>
    intro cs vs r h
    simp only [parseItems] at h
    split at h
    · rename_i rest heq
      refine skipWsL_mem (x := ']') ?_
      rw [heq]
      exact List.mem_cons_self _ _
    · rcases hv : parseValue f (skipWsL cs) with _ | ⟨v1, r1⟩
      · simp [hv] at h
      · simp only [hv] at h
        have hsfx1 : ∃ a, skipWsL cs = a ++ r1 := (parser_suffix f).1 (skipWsL cs) v1 r1 hv
        split at h
        · rename_i r2 heq2
          rw [Option.map_eq_some'] at h
          obtain ⟨⟨vs2, r3⟩, hpi, _⟩ := h
          have hin : ']' ∈ r2 := ih r2 vs2 r3 hpi
          have h1 : ']' ∈ skipWsL r1 := by
            rw [heq2]
            exact List.mem_cons_of_mem _ hin
          exact skipWsL_mem (suffix_mem hsfx1 (skipWsL_mem h1))
        · rename_i r2 heq2
          have h1 : ']' ∈ skipWsL r1 := by
            rw [heq2]
            exact List.mem_cons_self _ _
          exact skipWsL_mem (suffix_mem hsfx1 (skipWsL_mem h1))
        · exact Option.noConfusion h

/-- A parse that returns an array begins, after leading whitespace, with an
opening bracket that is later matched by a closing bracket. -/
theorem value_arr_start (f : Nat) (cs : List Char) (xs : List JsValue) (r : List Char)
    (h : parseValue f cs = some (JsValue.arr xs, r)) :
    ∃ t, skipWsL cs = '[' :: t ∧ ']' ∈ t := by
  cases f with
  | zero => simp [parseValue] at h
  | succ f =>
    simp only [parseValue] at h
    split at h
    · simp at h
    · simp at h
    · simp at h
    · rw [Option.map_eq_some'] at h
      obtain ⟨⟨s2, r2⟩, _, hpr⟩ := h
      simp at hpr
    · rename_i rest heq
      rw [Option.map_eq_some'] at h
      obtain ⟨⟨vs2, r2⟩, hpi, _⟩ := h
      exact ⟨rest, heq, items_close_mem f rest vs2 r2 hpi⟩
    · rw [Option.map_eq_some'] at h
      obtain ⟨⟨ms2, r2⟩, _, hpr⟩ := h
      simp at hpr
    · rename_i a1 c rest g1 g2 g3 g4 g5 g6 heq
      by_cases hd : (c == '-' || isDigitCh c) = true
      · rw [if_pos hd] at h
        obtain ⟨q, hq⟩ := parseNumber_num (c :: rest) (JsValue.arr xs) r h
        simp at hq
      · rw [if_neg hd] at h
        exact Option.noConfusion h
    · exact Option.noConfusion h

/-- Whitespace is never an opening bracket. -/
theorem ws_not_br (c : Char) (h : isWsCh c = true) : (c == '[') = false := by
  simp only [isWsCh, Bool.or_eq_true, beq_iff_eq] at h
  rcases h with ((((h | h) | h) | h) | h) | h <;> subst h <;> decide

/-- The bracket search skips any all-whitespace prefix. -/
theorem dropUntilBr_ws_prefix : ∀ (a rest : List Char), (∀ c ∈ a, isWsCh c = true) →
    dropUntilBr (a ++ '[' :: rest) = '[' :: rest := by
  intro a
  induction a with
  | nil => intro rest _; simp [dropUntilBr]
  | cons c a ih =>
    intro rest hws
    have hc : (c == '[') = false := ws_not_br c (hws c (List.mem_cons_self c a))
    simp only [List.cons_append, dropUntilBr, hc, Bool.false_eq_true, if_false]
    exact ih rest (fun x hx => hws x (List.mem_cons_of_mem c hx))

/-- The closing-bracket search finds something when the input has one. -/
theorem dropUntilCl_ne_nil : ∀ (r : List Char), ']' ∈ r → dropUntilCl r ≠ [] := by
  intro r
  induction r with
  | nil => intro h; cases h
  | cons c r ih =>
    intro hm
    by_cases hc : (c == ']') = true
    · simp [dropUntilCl, hc]
    · have hc2 : (c == ']') = false := by simpa using hc
      have hmem : ']' ∈ r := by
        rcases List.mem_cons.mp hm with h | h
        · exfalso
          apply hc
          rw [← h]
          rfl
        · exact h
      simp only [dropUntilCl, hc2, Bool.false_eq_true, if_false]
      exact ih hmem

/-- When the input begins (after whitespace) with an opening bracket later
matched by a closing one, the regex model finds a bracketed slice. -/
theorem bracketSlice_found (cs t : List Char) (hsk : skipWsL cs = '[' :: t)
    (hcl : ']' ∈ t) : bracketSlice cs ≠ none := by
  obtain ⟨a, ha, hws⟩ := skipWsL_decomp cs
  rw [hsk] at ha
  have hbr : dropUntilBr cs = '[' :: t := by
    rw [ha]
    exact dropUntilBr_ws_prefix a t hws
  have hrev : ']' ∈ t.reverse := List.mem_reverse.mpr hcl
  rcases hdc : dropUntilCl t.reverse with _ | ⟨ch, midRev⟩
  · exact absurd hdc (dropUntilCl_ne_nil t.reverse hrev)
  · simp [bracketSlice, hbr, hdc]

/-- The modelled `JSON.parse` can return an array only when the input text
contains a bracketed slice, i.e. when the regex model would have matched. -/
theorem jsonParseL_arr_bracket (cs : List Char) (xs : List JsValue)
    (h : jsonParseL cs = some (JsValue.arr xs)) : bracketSlice cs ≠ none := by
  simp only [jsonParseL] at h
  rcases hv : parseValue (jsonFuel cs) cs with _ | ⟨v, rest⟩
  · simp [hv] at h
  · simp only [hv] at h
    by_cases hr : skipWsL rest = []
    · rw [if_pos hr] at h
      simp only [Option.some.injEq] at h
      subst h
      obtain ⟨t, hsk, hcl⟩ := value_arr_start (jsonFuel cs) cs xs rest hv
      exact bracketSlice_found cs t hsk hcl
    · rw [if_neg hr] at h
      exact Option.noConfusion h

/-- The Cohere stage appends at most one `cohere` attempt to the trace, and
none without a configured key. -/
theorem afterGroq_shape (env : Env) (pre : List Call) :
    ∃ g2, (afterGroq env pre).2 = pre ++ g2 ∧ (g2 = [] ∨ g2 = [Call.cohere]) ∧
      (env.cohereApiKey = none → g2 = []) := by
  rcases hc : env.cohereApiKey with _ | k
  · exact ⟨[], by simp [afterGroq, hc], Or.inl rfl, fun _ => rfl⟩
  · rcases hm : makeCohereRequest env with e | t <;>
      exact ⟨[Call.cohere], by simp [afterGroq, hc, hm], Or.inr rfl,
        fun h => by simp [hc] at h⟩

/-- The Groq-then-Cohere stage appends at most one `groq` and at most one
`cohere` attempt, in that order, skipping providers without keys. -/
theorem afterGemini_shape (env : Env) (pre : List Call) :
    ∃ g1 g2, (afterGemini env pre).2 = pre ++ g1 ++ g2 ∧
      (g1 = [] ∨ g1 = [Call.groq]) ∧ (g2 = [] ∨ g2 = [Call.cohere]) ∧
      (env.groqApiKey = none → g1 = []) ∧ (env.cohereApiKey = none → g2 = []) := by
  rcases hq : env.groqApiKey with _ | k
  · rcases afterGroq_shape env pre with ⟨g2, ht, hg2, hc⟩
    exact ⟨[], g2, by simp [afterGemini, hq, ht], Or.inl rfl, hg2, fun _ => rfl, hc⟩
  · rcases hm : makeGroqRequest env with e | t
    · rcases afterGroq_shape env (pre ++ [Call.groq]) with ⟨g2, ht, hg2, hc⟩
      refine ⟨[Call.groq], g2, ?_, Or.inr rfl, hg2, fun h => by simp [hq] at h, hc⟩
      simp [afterGemini, hq, hm, ht]
    · exact ⟨[Call.groq], [], by simp [afterGemini, hq, hm], Or.inr rfl, Or.inl rfl,
        fun h => by simp [hq] at h, fun _ => rfl⟩

/-- The full orchestration trace: a block of Gemini attempts, then at most
one Groq attempt, then at most one Cohere attempt, with unconfigured
providers contributing nothing. -/
theorem makeRequest_shape (env : Env) :
    ∃ gs g1 g2, (makeRequest env).2 = gs.map Call.gemini ++ g1 ++ g2 ∧
      (g1 = [] ∨ g1 = [Call.groq]) ∧ (g2 = [] ∨ g2 = [Call.cohere]) ∧
      (env.googleApiKey = none → gs = []) ∧
      (env.groqApiKey = none → g1 = []) ∧ (env.cohereApiKey = none → g2 = []) := by
  rcases hg : env.googleApiKey with _ | k
  · rcases afterGemini_shape env [] with ⟨g1, g2, ht, h1, h2, h3, h4⟩
    exact ⟨[], g1, g2, by simp [makeRequest, hg, ht], h1, h2, fun _ => rfl, h3, h4⟩
  · rcases hr : (makeGeminiRequest env 0).1 with e | t
    · rcases afterGemini_shape env ((makeGeminiRequest env 0).2.1.map Call.gemini) with
        ⟨g1, g2, ht, h1, h2, h3, h4⟩
      refine ⟨(makeGeminiRequest env 0).2.1, g1, g2, ?_, h1, h2,
        fun h => by simp [hg] at h, h3, h4⟩
      simp [makeRequest, hg, hr, ht]
    · refine ⟨(makeGeminiRequest env 0).2.1, [], [], ?_, Or.inl rfl, Or.inl rfl,
        fun h => by simp [hg] at h, fun _ => rfl, fun _ => rfl⟩
      simp [makeRequest, hg, hr]

/-- The Cohere stage fails with `All AI services failed` when Cohere is
unconfigured or fails. -/
theorem afterGroq_fail (env : Env) (pre : List Call)
    (h : env.cohereApiKey = none ∨ ∃ e, makeCohereRequest env = Except.error e) :
    (afterGroq env pre).1 = Except.error PErr.allFailed := by
  rcases h with h | ⟨e, he⟩
  · simp [afterGroq, h]
  · rcases hc : env.cohereApiKey with _ | k
    · simp [afterGroq, hc]
    · simp [afterGroq, hc, he]

/-- The Groq-then-Cohere stage fails with `All AI services failed` when both
remaining providers are unconfigured or fail. -/
theorem afterGemini_fail (env : Env) (pre : List Call)
    (hq : env.groqApiKey = none ∨ ∃ e, makeGroqRequest env = Except.error e)
    (hc : env.cohereApiKey = none ∨ ∃ e, makeCohereRequest env = Except.error e) :
    (afterGemini env pre).1 = Except.error PErr.allFailed := by
  rcases hq with hq | ⟨e, he⟩
  · rw [afterGemini, hq]
    exact afterGroq_fail env pre hc
  · rcases hqq : env.groqApiKey with _ | k
    · rw [afterGemini, hqq]
      exact afterGroq_fail env pre hc
    · rw [afterGemini, hqq]
      rw [he]
      exact afterGroq_fail env (pre ++ [Call.groq]) hc

/-- One unrolling of the Gemini retry loop on a rate-limited attempt below
the retry bound: the wait `requestDelay * (retryCount + 1)` and the attempt
are recorded and the same provider is retried. -/
theorem gem_step_retry (env : Env) (f rc : Nat) (k : String) (hk : env.googleApiKey = some k)
    (hok : (env.geminiHttp rc).ok = false) (hst : (env.geminiHttp rc).status = 429)
    (hrc : rc < 2) :
    geminiAttempts env (f + 1) rc =
      ((geminiAttempts env f (rc + 1)).1,
       rc :: (geminiAttempts env f (rc + 1)).2.1,
       requestDelay * (rc + 1) :: (geminiAttempts env f (rc + 1)).2.2) := by
  simp [geminiAttempts, hk, hok, hst, hrc]

/-- Any non-retrying step of the Gemini loop records exactly one attempt
and no wait. -/
theorem gem_step_stop (env : Env) (f rc : Nat) (k : String) (hk : env.googleApiKey = some k)
    (hstop : ¬((env.geminiHttp rc).ok = false ∧ (env.geminiHttp rc).status = 429 ∧ rc < 2)) :
    (geminiAttempts env (f + 1) rc).2.1 = [rc] ∧ (geminiAttempts env (f + 1) rc).2.2 = [] := by
  cases hok : (env.geminiHttp rc).ok with
  | false =>
    have h2 : ¬((env.geminiHttp rc).status = 429 ∧ rc < 2) := fun hh => hstop ⟨hok, hh⟩
    simp [geminiAttempts, hk, hok, h2]
  | true =>
    rcases htx : (env.geminiHttp rc).text with _ | t
    · simp [geminiAttempts, hk, hok, htx]
    · by_cases ht : t = "" <;> simp [geminiAttempts, hk, hok, htx, ht]

/-- A failed response that is not retried makes the whole step fail. -/
theorem gem_step_fail (env : Env) (f rc : Nat) (k : String) (hk : env.googleApiKey = some k)
    (hok : (env.geminiHttp rc).ok = false)
    (hno : ¬((env.geminiHttp rc).status = 429 ∧ rc < 2)) :
    geminiAttempts env (f + 1) rc = (Except.error PErr.apiError, [rc], []) := by
  simp [geminiAttempts, hk, hok, hno]

/-- The four possible Gemini attempt/delay traces from retry count 0; a
trace of more than one attempt means the first response was a rate limit. -/
theorem makeGemini_shape (env : Env) :
    ((makeGeminiRequest env 0).2.1 = [] ∧ (makeGeminiRequest env 0).2.2 = []) ∨
    ((makeGeminiRequest env 0).2.1 = [0] ∧ (makeGeminiRequest env 0).2.2 = []) ∨
    (((makeGeminiRequest env 0).2.1 = [0, 1] ∧
        (makeGeminiRequest env 0).2.2 = [requestDelay * 1] ∨
      (makeGeminiRequest env 0).2.1 = [0, 1, 2] ∧
        (makeGeminiRequest env 0).2.2 = [requestDelay * 1, requestDelay * 2]) ∧
      (env.geminiHttp 0).ok = false ∧ (env.geminiHttp 0).status = 429) := by
  rcases hk : env.googleApiKey with _ | k
  · left
    simp [makeGeminiRequest, geminiAttempts, hk]
  · by_cases h0 : (env.geminiHttp 0).ok = false ∧ (env.geminiHttp 0).status = 429 ∧ (0 : Nat) < 2
    · have e0 := gem_step_retry env 2 0 k hk h0.1 h0.2.1 h0.2.2
      by_cases h1 : (env.geminiHttp 1).ok = false ∧ (env.geminiHttp 1).status = 429 ∧ (1 : Nat) < 2
      · have e1 := gem_step_retry env 1 1 k hk h1.1 h1.2.1 h1.2.2
        have e2 := gem_step_stop env 0 2 k hk (fun hh => absurd hh.2.2 (by omega))
        right; right
        refine ⟨Or.inr ⟨?_, ?_⟩, h0.1, h0.2.1⟩ <;>
          simp [makeGeminiRequest, e0, e1, e2.1, e2.2]
      · have e1 := gem_step_stop env 1 1 k hk h1
        right; right
        refine ⟨Or.inl ⟨?_, ?_⟩, h0.1, h0.2.1⟩ <;>
          simp [makeGeminiRequest, e0, e1.1, e1.2]
    · have e0 := gem_step_stop env 2 0 k hk h0
      right; left
      exact ⟨by simpa [makeGeminiRequest] using e0.1, by simpa [makeGeminiRequest] using e0.2⟩

/-! ## Claim theorems -/

/-- C5: for a single request, providers are attempted in declaration order
(Gemini attempts, then at most one Groq attempt, then at most one Cohere
attempt), providers without a configured credential are skipped, the first
provider returning text ends the sequence, and when every provider is
skipped or fails the orchestration signals that all providers failed. -/
theorem claim5_provider_order (env : Env) :
    (∃ (gs : List Nat) (g1 g2 : List Call),
      (makeRequest env).2 = gs.map Call.gemini ++ g1 ++ g2 ∧
      (g1 = [] ∨ g1 = [Call.groq]) ∧ (g2 = [] ∨ g2 = [Call.cohere])) ∧
    (env.googleApiKey = none → ∀ rc, Call.gemini rc ∉ (makeRequest env).2) ∧
    (env.groqApiKey = none → Call.groq ∉ (makeRequest env).2) ∧
    (env.cohereApiKey = none → Call.cohere ∉ (makeRequest env).2) ∧
    (∀ t, env.googleApiKey ≠ none → (makeGeminiRequest env 0).1 = Except.ok t →
      (makeRequest env).1 = Except.ok t ∧
      Call.groq ∉ (makeRequest env).2 ∧ Call.cohere ∉ (makeRequest env).2) ∧
    (∀ t, env.groqApiKey ≠ none → makeGroqRequest env = Except.ok t →
      (env.googleApiKey = none ∨ ∃ e, (makeGeminiRequest env 0).1 = Except.error e) →
      (makeRequest env).1 = Except.ok t ∧ Call.cohere ∉ (makeRequest env).2) ∧
    ((env.googleApiKey = none ∨ ∃ e, (makeGeminiRequest env 0).1 = Except.error e) →
     (env.groqApiKey = none ∨ ∃ e, makeGroqRequest env = Except.error e) →
     (env.cohereApiKey = none ∨ ∃ e, makeCohereRequest env = Except.error e) →
     (makeRequest env).1 = Except.error PErr.allFailed) := by
  obtain ⟨gs, g1, g2, ht, h1, h2, h3, h4, h5⟩ := makeRequest_shape env
  refine ⟨⟨gs, g1, g2, ht, h1, h2⟩, ?_, ?_, ?_, ?_, ?_, ?_⟩
  · intro hg rc hmem
    rw [ht, h3 hg] at hmem
    rcases h1 with h1 | h1 <;> rcases h2 with h2 | h2 <;> subst h1 <;> subst h2 <;>
      simp at hmem
  · intro hq hmem
    rw [ht, h4 hq] at hmem
    rcases h2 with h2 | h2 <;> subst h2 <;> simp [List.mem_append, List.mem_map] at hmem
  · intro hc hmem
    rw [ht, h5 hc] at hmem
    rcases h1 with h1 | h1 <;> subst h1 <;> simp [List.mem_append, List.mem_map] at hmem
  · intro t hk hr
    rcases hg : env.googleApiKey with _ | k
    · exact absurd hg hk
    · refine ⟨by simp [makeRequest, hg, hr], ?_, ?_⟩ <;>
        simp [makeRequest, hg, hr, List.mem_map]
  · intro t hq hr hfail
    rcases hqq : env.groqApiKey with _ | k2
    · exact absurd hqq hq
    · rcases hg : env.googleApiKey with _ | k
      · refine ⟨?_, ?_⟩ <;> simp [makeRequest, hg, afterGemini, hqq, hr]
      · rcases hfail with hnone | ⟨e, he⟩
        · rw [hg] at hnone; cases hnone
        · refine ⟨?_, ?_⟩ <;>
            simp [makeRequest, hg, he, afterGemini, hqq, hr, List.mem_append, List.mem_map]
  · intro hgf hqf hcf
    rcases hk : env.googleApiKey with _ | k
    · have h := afterGemini_fail env [] hqf hcf
      simp only [makeRequest, hk]
      exact h
    · rcases hgf with hg | ⟨e, he⟩
      · rw [hk] at hg
        cases hg
      · have h := afterGemini_fail env ((makeGeminiRequest env 0).2.1.map Call.gemini) hqf hcf
        simp only [makeRequest, hk, he]
        exact h

/-- Witness for C5: with Gemini failing outright and Groq succeeding, the
orchestration returns Groq's text without attempting Cohere; with no keys
configured at all, it signals that all providers failed. -/
theorem claim5_provider_order_witness :
    ((makeRequest envGeminiDown).1 = Except.ok "provider text" ∧
      Call.cohere ∉ (makeRequest envGeminiDown).2) ∧
    (makeRequest envNoKeys).1 = Except.error PErr.allFailed :=
  ⟨(claim5_provider_order envGeminiDown).2.2.2.2.2.1 "provider text"
      (by simp [envGeminiDown]) rfl (Or.inr ⟨PErr.apiError, rfl⟩),
   (claim5_provider_order envNoKeys).2.2.2.2.2.2 (Or.inl rfl) (Or.inl rfl) (Or.inl rfl)⟩

/-- C4: from retry count 0 the Gemini loop attempts the primary provider at
most 3 times (2 additional retries); the recorded waits are exactly
`requestDelay * (retryCount + 1)` in retry order and strictly increase;
more than one attempt happens only after a rate-limit response; after
exhausting the retries on a permanently rate-limited primary the
orchestrator advances to Groq; and the single-shot Groq and Cohere clients
appear at most once in any trace, so non-primary providers are never
retried. -/
theorem claim4_rate_limit_retry (env : Env) :
    (makeGeminiRequest env 0).2.1.length ≤ 3 ∧
    (makeGeminiRequest env 0).2.2.length ≤ 2 ∧
    (makeGeminiRequest env 0).2.2 =
      (List.range (makeGeminiRequest env 0).2.2.length).map (fun i => requestDelay * (i + 1)) ∧
    List.Chain' (fun a b => a < b) (makeGeminiRequest env 0).2.2 ∧
    (1 < (makeGeminiRequest env 0).2.1.length →
      (env.geminiHttp 0).ok = false ∧ (env.geminiHttp 0).status = 429) ∧
    (∀ gk qk, env.googleApiKey = some gk → env.groqApiKey = some qk →
      (∀ i, i < 3 → (env.geminiHttp i).ok = false ∧ (env.geminiHttp i).status = 429) →
      (makeGeminiRequest env 0).2.1 = [0, 1, 2] ∧
      (makeGeminiRequest env 0).2.2 = [requestDelay * 1, requestDelay * 2] ∧
      Call.groq ∈ (makeRequest env).2) ∧
    ((makeRequest env).2.count Call.groq ≤ 1 ∧
      (makeRequest env).2.count Call.cohere ≤ 1) := by
  have S := makeGemini_shape env
  refine ⟨?_, ?_, ?_, ?_, ?_, ?_, ?_⟩
  · rcases S with ⟨ha, _⟩ | ⟨ha, _⟩ | ⟨⟨ha, _⟩ | ⟨ha, _⟩, _, _⟩ <;> simp [ha]
  · rcases S with ⟨_, hd⟩ | ⟨_, hd⟩ | ⟨⟨_, hd⟩ | ⟨_, hd⟩, _, _⟩ <;> simp [hd]
  · rcases S with ⟨_, hd⟩ | ⟨_, hd⟩ | ⟨⟨_, hd⟩ | ⟨_, hd⟩, _, _⟩ <;> (rw [hd]; rfl)
  · rcases S with ⟨_, hd⟩ | ⟨_, hd⟩ | ⟨⟨_, hd⟩ | ⟨_, hd⟩, _, _⟩ <;> rw [hd] <;>
      simp [List.chain'_cons, requestDelay]
  · intro hlen
    rcases S with ⟨ha, _⟩ | ⟨ha, _⟩ | ⟨_, hok, hst⟩
    · rw [ha] at hlen; simp at hlen
    · rw [ha] at hlen; simp at hlen
    · exact ⟨hok, hst⟩
  · intro gk qk hgk hqk hall
    have h0 := hall 0 (by omega)
    have h1 := hall 1 (by omega)
    have h2 := hall 2 (by omega)
    have e0 := gem_step_retry env 2 0 gk hgk h0.1 h0.2 (by omega)
    have e1 := gem_step_retry env 1 1 gk hgk h1.1 h1.2 (by omega)
    have e2 := gem_step_fail env 0 2 gk hgk h2.1 (fun hh => absurd hh.2 (by omega))
    have hres : (makeGeminiRequest env 0).1 = Except.error PErr.apiError := by
      show (geminiAttempts env 3 0).1 = _
      rw [e0, e1, e2]
    refine ⟨?_, ?_, ?_⟩
    · show (geminiAttempts env 3 0).2.1 = [0, 1, 2]
      rw [e0, e1, e2]
    · show (geminiAttempts env 3 0).2.2 = [requestDelay * 1, requestDelay * 2]
      rw [e0, e1, e2]
    · rcases hgroq : makeGroqRequest env with e | t
      · rcases afterGroq_shape env
          ((makeGeminiRequest env 0).2.1.map Call.gemini ++ [Call.groq]) with ⟨g2, httr, _, _⟩
        simp only [makeRequest, hgk, hres, afterGemini, hqk, hgroq, httr]
        simp
      · simp only [makeRequest, hgk, hres, afterGemini, hqk, hgroq]
        simp
  · obtain ⟨gs, g1, g2, httr, h1, h2, _, _, _⟩ := makeRequest_shape env
    rw [httr]
    have hgq : (gs.map Call.gemini).count Call.groq = 0 := by
      rw [List.count_eq_zero]
      intro hmem
      rcases List.mem_map.mp hmem with ⟨rc, _, hEq⟩
      cases hEq
    have hgc : (gs.map Call.gemini).count Call.cohere = 0 := by
      rw [List.count_eq_zero]
      intro hmem
      rcases List.mem_map.mp hmem with ⟨rc, _, hEq⟩
      cases hEq
    constructor
    · rw [List.count_append, List.count_append, hgq]
      rcases h1 with h1 | h1 <;> rcases h2 with h2 | h2 <;> subst h1 <;> subst h2 <;> simp
    · rw [List.count_append, List.count_append, hgc]
      rcases h1 with h1 | h1 <;> rcases h2 with h2 | h2 <;> subst h1 <;> subst h2 <;> simp

/-- Witness for C4: a world where every provider is configured and Gemini
is permanently rate-limited exercises all three attempts, the two strictly
increasing waits, and the advance to Groq. -/
theorem claim4_rate_limit_retry_witness :
    (makeGeminiRequest envRateLimited 0).2.1 = [0, 1, 2] ∧
    (makeGeminiRequest envRateLimited 0).2.2 = [requestDelay * 1, requestDelay * 2] ∧
    Call.groq ∈ (makeRequest envRateLimited).2 :=
  (claim4_rate_limit_retry envRateLimited).2.2.2.2.2.1 "gk" "qk" rfl rfl
    (fun i _ => ⟨rfl, rfl⟩)

/-- C6: every parsed quiz entry violating the shape contract (options not
exactly 4, correct index not a number in `[0,4)`, or empty question text) is
excluded from the parser's result, and the retained entries are exactly
elements of the parsed array, in order and unchanged — never repaired. -/
theorem claim6_filter_never_repairs (response : String) (entries out : List JsValue)
    (hp : jsonParseL (selectPayload response) = some (JsValue.arr entries))
    (ho : parseQuizResponse response = Except.ok out) :
    out.Sublist entries ∧
    (∀ v ∈ out, v ∈ entries ∧ quizEntryOk v = true) ∧
    (∀ v ∈ entries, (optionsNot4 v ∨ correctIndexBad v ∨ questionEmptyStr v) → v ∉ out) := by
  simp only [parseQuizResponse, hp] at ho
  rcases hf : filterOkEntries quizEntryOk entries with u | valid
  · simp [hf] at ho
  · simp only [hf] at ho
    by_cases hl : 0 < valid.length
    · rw [if_pos hl] at ho
      simp only [Except.ok.injEq] at ho
      obtain ⟨hsub, hall⟩ := filterOk_spec quizEntryOk entries valid hf
      subst ho
      refine ⟨(List.take_sublist 4 valid).trans hsub, ?_, ?_⟩
      · intro v hv
        have hvv : v ∈ valid := (List.take_sublist 4 valid).subset hv
        exact ⟨hsub.subset hvv, hall v hvv⟩
      · intro v _ hviol hmem
        have hok2 : quizEntryOk v = true := hall v ((List.take_sublist 4 valid).subset hmem)
        rw [violation_fails_filter v hviol] at hok2
        cases hok2
    · rw [if_neg hl] at ho; simp at ho

/-- Witness for C6 at a payload holding one well-shaped and one
three-option entry. -/
theorem claim6_filter_never_repairs_witness :
    [entryGoodQ].Sublist [entryGoodQ, entryBadQ] ∧
    (∀ v ∈ [entryGoodQ], v ∈ [entryGoodQ, entryBadQ] ∧ quizEntryOk v = true) ∧
    (∀ v ∈ [entryGoodQ, entryBadQ],
      (optionsNot4 v ∨ correctIndexBad v ∨ questionEmptyStr v) → v ∉ [entryGoodQ]) :=
  claim6_filter_never_repairs rawMixedQuiz [entryGoodQ, entryBadQ] [entryGoodQ] rfl rfl

/-- C9: the parsers truncate the surviving entries to at most 4 (quiz) and
at most 5 (flashcards); the result is a sublist of the parsed array, so
insertion order is kept with no reordering or ranking. -/
theorem claim9_truncation :
    (∀ response entries out, jsonParseL (selectPayload response) = some (JsValue.arr entries) →
      parseQuizResponse response = Except.ok out → out.length ≤ 4 ∧ out.Sublist entries) ∧
    (∀ response entries out, jsonParseL (selectPayload response) = some (JsValue.arr entries) →
      parseFlashcardResponse response = Except.ok out → out.length ≤ 5 ∧ out.Sublist entries) := by
  constructor
  · intro response entries out hp ho
    simp only [parseQuizResponse, hp] at ho
    rcases hf : filterOkEntries quizEntryOk entries with u | valid
    · simp [hf] at ho
    · simp only [hf] at ho
      by_cases hl : 0 < valid.length
      · rw [if_pos hl] at ho
        simp only [Except.ok.injEq] at ho
        obtain ⟨hsub, _⟩ := filterOk_spec quizEntryOk entries valid hf
        subst ho
        exact ⟨List.length_take_le 4 valid, (List.take_sublist 4 valid).trans hsub⟩
      · rw [if_neg hl] at ho; simp at ho
  · intro response entries out hp ho
    simp only [parseFlashcardResponse, hp] at ho
    rcases hf : filterOkEntries cardEntryOk entries with u | valid
    · simp [hf] at ho
    · simp only [hf] at ho
      by_cases hl : 0 < valid.length
      · rw [if_pos hl] at ho
        simp only [Except.ok.injEq] at ho
        obtain ⟨hsub, _⟩ := filterOk_spec cardEntryOk entries valid hf
        subst ho
        exact ⟨List.length_take_le 5 valid, (List.take_sublist 5 valid).trans hsub⟩
      · rw [if_neg hl] at ho; simp at ho

/-- Witness for C9 at single-entry quiz and flashcard payloads. -/
theorem claim9_truncation_witness :
    (parseQuizResponse rawOneQuiz = Except.ok [entryOneQ] ∧
      [entryOneQ].length ≤ 4 ∧ [entryOneQ].Sublist [entryOneQ]) ∧
    (parseFlashcardResponse rawOneCard = Except.ok [entryOneC] ∧
      [entryOneC].length ≤ 5 ∧ [entryOneC].Sublist [entryOneC]) :=
  ⟨⟨rfl, (claim9_truncation.1 rawOneQuiz [entryOneQ] [entryOneQ] rfl rfl).1,
    (claim9_truncation.1 rawOneQuiz [entryOneQ] [entryOneQ] rfl rfl).2⟩,
   ⟨rfl, (claim9_truncation.2 rawOneCard [entryOneC] [entryOneC] rfl rfl).1,
    (claim9_truncation.2 rawOneCard [entryOneC] [entryOneC] rfl rfl).2⟩⟩

/-- C8: the heuristic fallback generator is pure — two runs on equal input
text and equal level return equal summaries, quizzes and flashcards. The
embedded generators take no other argument, mirroring the source functions,
which read neither randomness, nor time, nor any service state. -/
theorem claim8_fallback_pure (t1 t2 l1 l2 : String) (ht : t1 = t2) (hl : l1 = l2) :
    generateFallbackSummary t1 l1 = generateFallbackSummary t2 l2 ∧
    generateFallbackQuiz t1 = generateFallbackQuiz t2 ∧
    generateFallbackFlashcards t1 = generateFallbackFlashcards t2 := by
  subst ht; subst hl
  exact ⟨rfl, rfl, rfl⟩

/-- Witness for C8 at a concrete text and level. -/
theorem claim8_fallback_pure_witness :
    generateFallbackSummary "Plants grow." "college" = generateFallbackSummary "Plants grow." "college" ∧
    generateFallbackQuiz "Plants grow." = generateFallbackQuiz "Plants grow." ∧
    generateFallbackFlashcards "Plants grow." = generateFallbackFlashcards "Plants grow." :=
  claim8_fallback_pure "Plants grow." "Plants grow." "college" "college" rfl rfl

/-- C2 (amended): the fallback quiz is the three fixed generic questions —
whose `correctIndex` values are 0, 1 and 0, the second fixed question keying
its second option — plus a fourth question templated from the first keyword
exactly when at least one keyword exists; so 4 entries with a keyword and 3
without. -/
theorem claim2_fallback_quiz_shape (text : String) :
    (keyTermsOf commonWords12 3 text = [] → generateFallbackQuiz text = [fq1, fq2, fq3]) ∧
    (∀ k ks, keyTermsOf commonWords12 3 text = k :: ks →
      generateFallbackQuiz text = [fq1, fq2, fq3, fq4 k]) ∧
    jsGet fq1 "correctIndex" = some (JsValue.num (jsInt 0)) ∧
    jsGet fq2 "correctIndex" = some (JsValue.num (jsInt 1)) ∧
    jsGet fq3 "correctIndex" = some (JsValue.num (jsInt 0)) ∧
    (∀ k, jsGet (fq4 k) "correctIndex" = some (JsValue.num (jsInt 0))) := by
  refine ⟨?_, ?_, rfl, rfl, rfl, fun k => rfl⟩
  · intro h
    unfold generateFallbackQuiz
    rw [h]
    rfl
  · intro k ks h
    unfold generateFallbackQuiz
    rw [h]
    rfl

/-- Counterexample for C2 as stated: the second fixed generic question of
the fallback quiz carries `correctIndex` 1, not 0. -/
theorem claim2_fallback_quiz_cex :
    ((generateFallbackQuiz "").get? 1).bind (fun q => jsGet q "correctIndex") =
      some (JsValue.num (jsInt 1)) ∧
    JsValue.num (jsInt 1) ≠ JsValue.num (jsInt 0) := by
  refine ⟨rfl, ?_⟩
  intro h
  rw [JsValue.num.injEq, jsInt, jsInt, JsNum.mk.injEq] at h
  exact absurd h.1 (by decide)

/-- Witness for C2 at a keyword-bearing and a keyword-free text. -/
theorem claim2_fallback_quiz_witness :
    generateFallbackQuiz "birds horses" = [fq1, fq2, fq3, fq4 "birds"] ∧
    generateFallbackQuiz "" = [fq1, fq2, fq3] :=
  ⟨(claim2_fallback_quiz_shape "birds horses").2.1 "birds" ["horses"] rfl,
   (claim2_fallback_quiz_shape "").1 rfl⟩

set_option maxRecDepth 4096 in
/-- C7: on empty input the heuristic fallback generators complete and
return a non-empty summary string, a 3-question quiz (no keywords exist, so
only the 3 fixed questions), and at least 3 flashcards. -/
theorem claim7_fallback_empty_input :
    (∀ level, 0 < (generateFallbackSummary "" level).length) ∧
    (generateFallbackQuiz "").length = 3 ∧
    (generateFallbackFlashcards "").length = 3 ∧
    3 ≤ (generateFallbackFlashcards "").length := by
  refine ⟨?_, rfl, rfl, Nat.le_of_eq rfl⟩
  intro level
  have ht : 0 <
      (" level information that helps build understanding of the subject matter.\n\nThe content focuses on explaining these concepts clearly and providing foundation knowledge for further learning in this area." : String).length := by
    decide
  simp only [generateFallbackSummary, String.length_append]
  omega

/-- C10 (amended): direct text longer than 10,000 characters is always
rejected with an error (the too-long error whenever the text is not blank),
while non-blank file-extracted text longer than 10,000 characters is
silently truncated to its first 10,000 characters plus an ellipsis and
processed. -/
theorem claim10_length_asymmetry (text : String) (h : 10000 < text.data.length) :
    (∃ e, processTextGate text = Except.error e) ∧
    (jsTrimL text.data ≠ [] →
      processTextGate text = Except.error ("Text too long. Maximum 10,000 characters allowed.")) ∧
    (jsTrimL text.data ≠ [] →
      processFileGate text = Except.ok (String.mk (text.data.take 10000) ++ "...")) := by
  have h2 : 10000 < text.length := h
  by_cases ht : jsTrimL text.data = []
  · refine ⟨⟨"Text content is required", ?_⟩, fun hc => absurd ht hc, fun hc => absurd ht hc⟩
    simp [processTextGate, ht]
  · refine ⟨⟨"Text too long. Maximum 10,000 characters allowed.", ?_⟩, fun _ => ?_, fun _ => ?_⟩ <;>
      simp [processTextGate, processFileGate, ht, h, h2]

/-- Counterexample for C10 as stated: over-long whitespace-only file text is
rejected by the emptiness check, not truncated and processed. -/
theorem claim10_length_asymmetry_cex :
    10000 < longBlank.data.length ∧
    processFileGate longBlank = Except.error ("No text could be extracted from the file") := by
  constructor
  · show 10000 < (List.replicate 10001 ' ').length
    rw [List.length_replicate]
    omega
  · rw [processFileGate, if_pos jsTrimL_longBlank]

/-- Witness for C10 at a non-blank 10,001-character text. -/
theorem claim10_length_asymmetry_witness :
    processTextGate longLetters = Except.error ("Text too long. Maximum 10,000 characters allowed.") ∧
    processFileGate longLetters = Except.ok (String.mk (longLetters.data.take 10000) ++ "...") := by
  have hlen : 10000 < longLetters.data.length := by
    show 10000 < (List.replicate 10001 'a').length
    rw [List.length_replicate]
    omega
  have hne : jsTrimL longLetters.data ≠ [] := by
    rw [jsTrimL_longLetters]
    show List.replicate 10001 'a' ≠ []
    rw [show (10001 : Nat) = 10000 + 1 from rfl, List.replicate_succ]
    exact List.cons_ne_nil _ _
  exact ⟨(claim10_length_asymmetry longLetters hlen).2.1 hne,
         (claim10_length_asymmetry longLetters hlen).2.2 hne⟩

/-- C1: in the multi-provider entry point every provider-chain or parsing
failure is recovered by substituting the heuristic fallback output, but in
`src/server.js` the quiz operation cannot recover: its catch branch invokes
the `generateFallbackQuiz` method that its `AIService` never defines, so the
operation propagates a `TypeError` instead of returning the fallback quiz. -/
theorem claim1_generation_failure_policy :
    (∀ env text e, (makeRequest env).1 = Except.error e →
      generateQuiz env text = generateFallbackQuiz text) ∧
    (∀ env text r e, (makeRequest env).1 = Except.ok r → parseQuizResponse r = Except.error e →
      generateQuiz env text = generateFallbackQuiz text) ∧
    (∀ env text level e, (makeRequest env).1 = Except.error e →
      generateSummary env text level = generateFallbackSummary text level) ∧
    (∀ env text e, (makeRequest env).1 = Except.error e →
      generateFlashcards env text = generateFallbackFlashcards text) ∧
    (∀ env text r e, (makeRequest env).1 = Except.ok r → parseFlashcardResponse r = Except.error e →
      generateFlashcards env text = generateFallbackFlashcards text) ∧
    (∀ text, SrvJs.generateQuiz srvNoKeyEnv text = Except.error SrvJs.JsFault.missingFallbackQuiz) := by
  refine ⟨?_, ?_, ?_, ?_, ?_, fun text => rfl⟩
  · intro env text e h; simp [generateQuiz, h]
  · intro env text r e h hp; simp [generateQuiz, h, hp]
  · intro env text level e h; simp [generateSummary, h]
  · intro env text e h; simp [generateFlashcards, h]
  · intro env text r e h hp; simp [generateFlashcards, h, hp]

/-- Witness for C1: with no credential configured the multi-provider quiz
operation returns the fallback quiz, while the `src/server.js` one fails. -/
theorem claim1_generation_failure_policy_witness :
    generateQuiz envNoKeys "course notes" = generateFallbackQuiz "course notes" ∧
    SrvJs.generateQuiz srvNoKeyEnv "course notes" = Except.error SrvJs.JsFault.missingFallbackQuiz :=
  ⟨claim1_generation_failure_policy.1 envNoKeys "course notes" PErr.allFailed rfl,
   claim1_generation_failure_policy.2.2.2.2.2 "course notes"⟩

/-- C3 (corrected): when the cleaned provider text contains no bracketed
`[...]` slice, the parser does not fail with a dedicated
`NoStructuredPayload` error — no such error exists in the code. Instead it
feeds the whole cleaned text to `JSON.parse`, so it fails either with a
JSON `SyntaxError` or, when that text happens to parse as a non-array
value, with the generic no-valid-entries error. -/
theorem claim3_no_structured_payload (response : String)
    (h : bracketSlice (stripFences (jsTrimL response.data)) = none) :
    parseQuizResponse response = Except.error ParseFail.syntaxErr ∨
    parseQuizResponse response = Except.error ParseFail.noValid := by
  have hsel : selectPayload response = stripFences (jsTrimL response.data) := by
    simp only [selectPayload, h]
  rcases hj : jsonParseL (selectPayload response) with _ | v
  · exact Or.inl (by simp [parseQuizResponse, hj])
  · rcases v with _ | b | q | s | xs | fs
    · exact Or.inr (by simp [parseQuizResponse, hj])
    · exact Or.inr (by simp [parseQuizResponse, hj])
    · exact Or.inr (by simp [parseQuizResponse, hj])
    · exact Or.inr (by simp [parseQuizResponse, hj])
    · exact absurd h (by rw [← hsel]; exact jsonParseL_arr_bracket _ xs hj)
    · exact Or.inr (by simp [parseQuizResponse, hj])

/-- Counterexample for C3 as stated: two bracket-free responses on which the
parser demonstrably does attempt to parse the remaining text — `"42"` parses
as a JSON number and yields the no-valid-entries error, while `"oops"` is
not JSON and yields the syntax error; a single fixed `NoStructuredPayload`
outcome could not produce these two distinct failures. -/
theorem claim3_no_structured_payload_cex :
    bracketSlice (stripFences (jsTrimL ("42").data)) = none ∧
    parseQuizResponse "42" = Except.error ParseFail.noValid ∧
    bracketSlice (stripFences (jsTrimL ("oops").data)) = none ∧
    parseQuizResponse "oops" = Except.error ParseFail.syntaxErr ∧
    ParseFail.noValid ≠ ParseFail.syntaxErr :=
  ⟨rfl, rfl, rfl, rfl, by decide⟩

/-- Witness for C3 at the bracket-free response `"hello"`. -/
theorem claim3_no_structured_payload_witness :
    bracketSlice (stripFences (jsTrimL ("hello").data)) = none ∧
    (parseQuizResponse "hello" = Except.error ParseFail.syntaxErr ∨
     parseQuizResponse "hello" = Except.error ParseFail.noValid) :=
  ⟨rfl, claim3_no_structured_payload "hello" rfl⟩

end EduBridge
